import Mathlib

/-!
# Container lifecycle and networking of core0

A shallow embedding of `core0/subsys/containers/container.go` and
`core0/containers/network.go`.

The Go code talks to the kernel (netlink, mount), to the process manager and to
the container manager.  None of those are part of the translated sources, so
every such call is recorded in a `Trace` and answered by an oracle (`Env.reply`)
that may depend on everything that happened before.  Theorems quantify over the
oracle, so they hold for every behaviour of the outside world.

`network.go` names the record fields `c.Arguments` and `c.pid`, `container.go`
names them `c.Args` and `c.PID`; the embedding uses `Args` and `PID` for both.
-/

set_option linter.dupNamespace false

namespace Core0

/-! ## Errors and results -/

/-- A Go `error` value. `mk` is an error with the given `Error()` text,
`numError` is the `*strconv.NumError` that `strconv.ParseInt` returns. -/
inductive GoError where
  | mk (message : String)
  | numError (func num : String) (range : Bool)
deriving DecidableEq, Repr

/-- How a Go function call ends: it returns a value, or a run-time panic unwinds it. -/
inductive Outcome (α : Type) where
  | ret (a : α)
  | panicked (message : String)
deriving DecidableEq, Repr

/-! ## Data model -/

structure NetworkConfig where
  Dhcp : Bool
  CIDR : String
  Gateway : String
  DNS : List String
deriving DecidableEq, Repr

/-- A network interface request; `NicType` is the Go field `Type`. -/
structure Nic where
  NicType : String
  ID : String
  HWAddress : String
  Config : NetworkConfig
deriving DecidableEq, Repr

/-- Creation arguments.  `Port` is a Go map; the list fixes one iteration order. -/
structure ContainerCreateArguments where
  Root : String
  Mount : List (String × String)
  HostNetwork : Bool
  Nics : List Nic
  Port : List (Int × Int)
  Privileged : Bool
  Hostname : String
  Tags : List String
deriving DecidableEq, Repr

/-- Value stored in a `map[string]interface{}` argument map. -/
inductive ArgVal where
  | str (s : String)
  | int (i : Int)
deriving DecidableEq, Repr

/-- The typed payload `core.MustArguments` is applied to. -/
inductive Arguments where
  | system (Name : String) (Args : List String) (NoOutput : Bool)
  | container (Name Chroot Dir : String) (HostNetwork : Bool) (Args : List String)
      (Env : List (String × String))
  | map (kv : List (String × ArgVal))
  | none
deriving DecidableEq, Repr

/-- The `core.Command` object. -/
structure Command where
  ID : String
  Command : String
  Route : String
  Arguments : Arguments
deriving DecidableEq, Repr

/-- The `netlink.Veth` passed to `netlink.LinkAdd`. -/
structure Veth where
  Name : String
  FlagUp : Bool
  MTU : Nat
  TxQLen : Nat
  PeerName : String
deriving DecidableEq, Repr

/-- Calls that leave the translated sources, in the order they are made. -/
inductive Call where
  | sandbox (id : Nat)
  | unMountAll (id : Nat)
  | unset_container (id : Nat)
  | getOneWithTags (tag : String)
  | dispatchSync (container : Nat) (cmd : Command)
  | NewRunner (cmd : Command)
  | RunCmd (cmd : Command)
  | Wait (id : String)
  | Kill (id : String)
  | channelClose (id : Nat)
  | LinkByName (name : String)
  | LinkAdd (veth : Veth)
  | LinkSetMaster (name bridge : String)
  | LinkSetHardwareAddr (name mac : String)
  | LinkSetUp (name : String)
  | LinkSetNsPid (name : String) (pid : Int)
  | LinkDel (name : String)
  | MkdirAll (path : String)
  | Remove (path : String)
  | RemoveAll (path : String)
  | WriteFile (path : String)
  | Create (path : String)
  | Mount (source target : String) (flags : Nat)
  | Unmount (target : String) (flags : Nat)
  | appendFile (path text : String)
deriving DecidableEq, Repr

abbrev Trace := List Call

/-- What the outside world answers to a call.  `err` is the returned Go error
(`none` for `nil`), `state` the `JobResult.State`, `data` the textual payload
(`JobResult.Data`, rendered `Streams`, or `link.Type()`), `ref` a returned
container id (`none` for a `nil` pointer). -/
structure Reply where
  err : Option String
  state : String
  data : String
  ref : Option Nat
deriving DecidableEq, Repr

/-- Package level constants that are declared outside the translated files. -/
structure Config where
  BridgeIP : Nat → Nat
  DefaultBridgeIP : String
  DefaultBridgeName : String
  CommandSystem : String
  mountpoint : String

/-- The outside world: the oracle answering calls, and the pure library
functions `net.ParseMAC`, `net.ParseCIDR`, `json.Unmarshal` (into a string) and
`uuid.New`. -/
structure Env where
  cfg : Config
  reply : Trace → Call → Reply
  /-- Go `net.ParseMAC`: `some mac` is the parsed address, `none` is a parse error. -/
  ParseMAC : String → Option String
  /-- Go `net.ParseCIDR`: `some e` is the error, `none` is success. -/
  ParseCIDR : String → Option String
  Unmarshal : String → Except String String
  uuid : Trace → String

/-- The `container` record of `container.go`.  `id` is a `uint16`; `runner` and
`channel` are interface values, `none` being the `nil` interface. -/
structure container where
  id : Nat
  runner : Option String
  route : String
  Args : ContainerCreateArguments
  Root : String
  PID : Int
  channel : Option Nat
deriving DecidableEq, Repr

/-! ## Constants of `container.go` and `network.go` -/

def OVSTag : String := "ovs"
def OVSBackPlane : String := "backplane"
def OVSVXBackend : String := "vxbackend"
def StateSuccess : String := "success"

/-- Linux mount flag `syscall.MS_RDONLY`. -/
def MS_RDONLY : Nat := 0x1

/-- Linux mount flag `syscall.MS_BIND`. -/
def MS_BIND : Nat := 0x1000

/-- Modelled from the spec: the constant `zeroTierCommand` is declared outside the
translated files; the spec names the host-side command `zerotier`. -/
def zeroTierCommand : String := "zerotier"

/-- Modelled from the spec: `root(id) = <configured mountpoint>/<id>`; the method
`container.root` is declared outside the translated files. -/
def root (cfg : Config) (c : container) : String :=
  cfg.mountpoint ++ "/" ++ toString c.id

/-- Performs an outside call: the oracle answers from the history, the call is appended. -/
def call (env : Env) (t : Trace) (k : Call) : Reply × Trace :=
  (env.reply t k, t ++ [k])

/-- Go `fmt.Sprintf(containerLinkNameFmt, id, index)`, the format being `"cont%d-%d"`. -/
def containerLinkNameFmt (id index : Nat) : String :=
  "cont" ++ toString id ++ "-" ++ toString index

/-- Go `fmt.Sprintf(containerPeerNameFmt, name)`, the format being `"%sp"`. -/
def containerPeerNameFmt (name : String) : String :=
  name ++ "p"

/-- Go `path.Join` on clean, non-empty elements. -/
def pathJoin (parts : List String) : String :=
  "/".intercalate parts

/-! ## `strconv.ParseInt(s, 10, bitSize)` -/

/-- Digit loop of `strconv.ParseUint` in base 10 with `maxVal = 1<<bitSize - 1`.
The error `false` is `ErrSyntax`, the error `true` is `ErrRange`.  The loop leaves
at the first byte that is not a digit, and at the first digit with which the value
overflows `uint64` or exceeds `maxVal`, whatever follows. -/
def parseUintLoop (maxVal : Nat) : List Char → Nat → Except Bool Nat
  | [], n => .ok n
  | ch :: rest, n =>
    if ch.isDigit then
      -- cutoff is the smallest number such that cutoff*base > maxUint64
      if (2 ^ 64 - 1) / 10 + 1 ≤ n then .error true
      else
        let n1 := n * 10 + (ch.toNat - 48)
        if 2 ^ 64 ≤ n1 ∨ maxVal < n1 then .error true
        else parseUintLoop maxVal rest n1
    else .error false

def ParseUint (cs : List Char) (bitSize : Nat) : Except Bool Nat :=
  match cs with
  | [] => .error false
  | _ :: _ => parseUintLoop (2 ^ bitSize - 1) cs 0

/-- The range test of `ParseInt` on the unsigned value `un`. -/
def intCutoff (s : String) (bitSize : Nat) (neg : Bool) (un : Nat) : Except GoError Int :=
  let cutoff := 2 ^ (bitSize - 1)
  if !neg && decide (cutoff ≤ un) then .error (.numError "ParseInt" s true)
  else if neg && decide (cutoff < un) then .error (.numError "ParseInt" s true)
  else .ok (if neg then - (un : Int) else (un : Int))

/-- Go `strconv.ParseInt(s, 10, bitSize)`.  A syntax error of `ParseUint` is
returned at once; on its range error the value is `maxUint64` and the range test
follows, as for a value that was read. -/
def ParseInt (s : String) (bitSize : Nat) : Except GoError Int :=
  match s.data with
  | [] => .error (.numError "ParseInt" s false)
  | ch :: rest =>
    let neg := decide (ch = '-')
    let body := if ch = '+' ∨ ch = '-' then rest else ch :: rest
    match ParseUint body bitSize with
    | .error false => .error (.numError "ParseInt" s false)
    | .error true => intCutoff s bitSize neg (2 ^ 64 - 1)
    | .ok un => intCutoff s bitSize neg un

/-! ## `net.IPv4` and `getDefaultIP` -/

/-- Go `net.IPv4(a, b, c, d)`: the 16-byte form, IPv4 mapped into IPv6. -/
def IPv4 (a b c d : Nat) : List Nat :=
  [0, 0, 0, 0, 0, 0, 0, 0, 0, 0, 0xff, 0xff, a, b, c, d]

/-- Go `ip.String()` for an address built by `IPv4`. -/
def ipString (ip : List Nat) : String :=
  ".".intercalate ((ip.drop 12).map toString)

/-- Method `getDefaultIP`: `base := c.id + 1` is `uint16` arithmetic; in Go `&` and `>>`
have the same precedence and associate to the left. -/
def getDefaultIP (cfg : Config) (c : container) : List Nat :=
  let base := (c.id + 1) % 65536
  IPv4 (cfg.BridgeIP 0) (cfg.BridgeIP 1) (((base &&& 0xff00) >>> 8) % 256) ((base &&& 0x00ff) % 256)

/-! ## Pre-start networking (`network.go`) -/

/-- Method `preStartHostNetworking`: the results of `MkdirAll`, `Remove` and `WriteFile`
are dropped, the result of the bind mount is returned. -/
def preStartHostNetworking (env : Env) (c : container) (t : Trace) : Option GoError × Trace :=
  let t1 := (call env t (.MkdirAll (pathJoin [root env.cfg c, "etc"]))).2
  let p := pathJoin [root env.cfg c, "etc", "resolv.conf"]
  let t2 := (call env t1 (.Remove p)).2
  let t3 := (call env t2 (.WriteFile p)).2
  match call env t3 (.Mount "/etc/resolv.conf" p MS_BIND) with
  | (r, t4) => (r.err.map GoError.mk, t4)

/-- The block of `preBridge` that sets the master of the new veth: without OVS the
link found under the bridge name must be of type `bridge` and becomes the master;
with OVS the port is added by the command `ovs.port-add`. -/
def setMaster (env : Env) (name bridge linkType : String) (ovs : Option Nat) (t : Trace) :
    Option GoError × Trace :=
  match ovs with
  | none =>
    -- no ovs
    if linkType ≠ "bridge" then
      (some (.mk ("'" ++ bridge ++ "' is not a bridge")), t)
    else
      match call env t (.LinkSetMaster name bridge) with
      | (r, t1) => (r.err.map GoError.mk, t1)
  | some ovsId =>
    -- with ovs
    match call env t (.dispatchSync ovsId
        { ID := "", Command := "ovs.port-add", Route := "",
          Arguments := .map [("bridge", .str bridge), ("port", .str name)] }) with
    | (result, t1) =>
      match result.err with
      | some e => (some (.mk ("ovs dispatch error: " ++ e)), t1)
      | none =>
        if result.state ≠ StateSuccess then
          (some (.mk ("failed to attach veth to bridge: " ++ result.data)), t1)
        else (none, t1)

/-- The end of `preBridge`: look the peer up and set its hardware address when one
is given and parses. -/
def setupPeer (env : Env) (peerName : String) (n : Nic) (t : Trace) : Option GoError × Trace :=
  match call env t (.LinkByName peerName) with
  | (peer, t1) =>
  match peer.err with
  | some e => (some (.mk ("get peer: " ++ e)), t1)
  | none =>
  if n.HWAddress ≠ "" then
    match env.ParseMAC n.HWAddress with
    | some mac =>
      match call env t1 (.LinkSetHardwareAddr peerName mac) with
      | (r, t2) =>
        match r.err with
        | some e => (some (.mk ("failed to setup hw address: " ++ e)), t2)
        | none => (none, t2)
    | none => (none, t1)
  else (none, t1)

/-- Method `preBridge(index, bridge, n, ovs)`; `ovs` is the id of the OVS container or
`none` for the `nil` pointer. -/
def preBridge (env : Env) (c : container) (index : Nat) (bridge : String) (n : Nic)
    (ovs : Option Nat) (t : Trace) : Option GoError × Trace :=
  match call env t (.LinkByName bridge) with
  | (link, t1) =>
  match link.err with
  | some e => (some (.mk ("bridge '" ++ bridge ++ "' not found: " ++ e)), t1)
  | none =>
  let name := containerLinkNameFmt c.id index
  let peerName := containerPeerNameFmt name
  let veth : Veth :=
    { Name := name, FlagUp := true, MTU := 1500, TxQLen := 1000, PeerName := peerName }
  match call env t1 (.LinkAdd veth) with
  | (added, t2) =>
  match added.err with
  | some e => (some (.mk ("create veth pair fail: " ++ e)), t2)
  | none =>
  match setMaster env name bridge link.data ovs t2 with
  | (some e, t3) => (some e, t3)
  | (none, t3) => setupPeer env peerName n t3

/-- The `Nic` that `preDefaultNetwork` and `postDefaultNetwork` build. -/
def defnet (env : Env) (c : container) : Nic :=
  { NicType := "", ID := "", HWAddress := "",
    Config := { Dhcp := false,
                CIDR := ipString (getDefaultIP env.cfg c) ++ "/16",
                Gateway := env.cfg.DefaultBridgeIP,
                DNS := [env.cfg.DefaultBridgeIP] } }

def preDefaultNetwork (env : Env) (c : container) (i : Nat) (_net : Nic) (t : Trace) :
    Option GoError × Trace :=
  preBridge env c i env.cfg.DefaultBridgeName (defnet env c) none t

def preVxlanNetwork (env : Env) (c : container) (idx : Nat) (net : Nic) (t : Trace) :
    Option GoError × Trace :=
  match ParseInt net.ID 64 with
  | .error e => (some e, t)
  | .ok vxlan =>
  -- find the container with OVS tag
  match call env t (.getOneWithTags OVSTag) with
  | (ovs, t1) =>
  match ovs.ref with
  | none => (some (.mk "ovs is needed for VLAN network type"), t1)
  | some ovsId =>
  match call env t1 (.dispatchSync ovsId
      { ID := "", Command := "ovs.vxlan-ensure", Route := "",
        Arguments := .map [("master", .str OVSVXBackend), ("vxlan", .int vxlan)] }) with
  | (result, t2) =>
  match result.err with
  | some e => (some (.mk e), t2)
  | none =>
  if result.state ≠ StateSuccess then
    (some (.mk ("failed to ensure vlan bridge: " ++ result.data)), t2)
  else
    match env.Unmarshal result.data with
    | .error e => (some (.mk ("failed to load vlan-ensure result: " ++ e)), t2)
    | .ok bridge => preBridge env c idx bridge net (some ovsId) t2

def preVlanNetwork (env : Env) (c : container) (idx : Nat) (net : Nic) (t : Trace) :
    Option GoError × Trace :=
  match ParseInt net.ID 16 with
  | .error e => (some e, t)
  | .ok vlanID =>
  if vlanID < 0 ∨ vlanID ≥ 4095 then
    (some (.mk "invalid vlan id (0-4094)"), t)
  else
  -- find the container with OVS tag
  match call env t (.getOneWithTags OVSTag) with
  | (ovs, t1) =>
  match ovs.ref with
  | none => (some (.mk "ovs is needed for VLAN network type"), t1)
  | some ovsId =>
  match call env t1 (.dispatchSync ovsId
      { ID := "", Command := "ovs.vlan-ensure", Route := "",
        Arguments := .map [("master", .str OVSBackPlane), ("vlan", .int vlanID)] }) with
  | (result, t2) =>
  match result.err with
  | some e => (some (.mk e), t2)
  | none =>
  if result.state ≠ StateSuccess then
    (some (.mk ("failed to ensure vlan bridge: " ++ result.data)), t2)
  else
    match env.Unmarshal result.data with
    | .error e => (some (.mk ("failed to load vlan-ensure result: " ++ e)), t2)
    | .ok bridge => preBridge env c idx bridge net (some ovsId) t2

/-- Body of the loop of `preStartIsolatedNetworking` for one NIC: the `switch` on
`network.Type`. -/
def preStartNic (env : Env) (c : container) (idx : Nat) (network : Nic) (t : Trace) :
    Option GoError × Trace :=
  if network.NicType = "vxlan" then preVxlanNetwork env c idx network t
  else if network.NicType = "vlan" then preVlanNetwork env c idx network t
  else if network.NicType = "default" then preDefaultNetwork env c idx network t
  else if network.NicType = "zerotier" then (none, t)
  else (some (.mk ("unkown network type '" ++ network.NicType ++ "'")), t)

/-- The `for idx, network := range nics` loop of `preStartIsolatedNetworking`,
started at index `idx`: the first error returns. -/
def preStartLoop (env : Env) (c : container) :
    Nat → List Nic → Trace → Option GoError × Trace
  | _, [], t => (none, t)
  | idx, network :: rest, t =>
    match preStartNic env c idx network t with
    | (some e, t1) => (some e, t1)
    | (none, t1) => preStartLoop env c (idx + 1) rest t1

def preStartIsolatedNetworking (env : Env) (c : container) (t : Trace) : Option GoError × Trace :=
  preStartLoop env c 0 c.Args.Nics t

/-! ## Post-start networking (`network.go`, `container.go`) -/

/-- Method `namespace()`: the results of `MkdirAll` and `Create` are dropped. -/
def namespace_ (env : Env) (c : container) (t : Trace) : Option GoError × Trace :=
  let sourceNs := "/proc/" ++ toString c.PID ++ "/ns/net"
  let t1 := (call env t (.MkdirAll "/run/netns")).2
  let targetNs := "/run/netns/" ++ toString c.id
  let t2 := (call env t1 (.Create targetNs)).2
  match call env t2 (.Mount sourceNs targetNs MS_BIND) with
  | (r, t3) =>
    match r.err with
    | some e => (some (.mk ("namespace mount: " ++ e)), t3)
    | none => (none, t3)

/-- A `process.CommandSystem` command with a fresh `uuid.New()` id. -/
def systemCommand (env : Env) (t : Trace) (name : String) (args : List String) : Command :=
  { ID := env.uuid t, Command := env.cfg.CommandSystem, Route := "",
    Arguments := .system name args false }

/-- Call of `RunCmd(cmd)` followed by `runner.Wait()`, as the source does for the commands
whose result it checks: a start error is returned as is, a final state other than
success gives the error built from `failure` and the rendered streams. -/
def runAndWait (env : Env) (cmd : Command) (failure : String) (t : Trace) :
    Option GoError × Trace :=
  match call env t (.RunCmd cmd) with
  | (runner, t1) =>
    match runner.err with
    | some e => (some (.mk e), t1)
    | none =>
      match call env t1 (.Wait cmd.ID) with
      | (result, t2) =>
        if result.state ≠ StateSuccess then (some (.mk (failure ++ result.data)), t2)
        else (none, t2)

def setGateway (env : Env) (c : container) (idx : Nat) (gw : String) (t : Trace) :
    Option GoError × Trace :=
  let eth := "eth" ++ toString idx
  runAndWait env
    (systemCommand env t "ip"
      ["netns", "exec", toString c.id, "ip", "route", "add", "metric", "1000", "default",
       "via", gw, "dev", eth])
    "error settings interface ip: " t

/-- Method `setDNS`: `OpenFile` with `O_CREATE|O_APPEND|O_WRONLY` followed by
`WriteString`, one outside call here. -/
def setDNS (env : Env) (c : container) (dns : String) (t : Trace) : Option GoError × Trace :=
  match call env t (.appendFile (pathJoin [root env.cfg c, "etc", "resolv.conf"])
      ("\nnameserver " ++ dns ++ "\n")) with
  | (r, t1) => (r.err.map GoError.mk, t1)

/-- The `for _, dns := range n.Config.DNS` loop of `postBridge`. -/
def setDNSLoop (env : Env) (c : container) : List String → Trace → Option GoError × Trace
  | [], t => (none, t)
  | dns :: rest, t =>
    match setDNS env c dns t with
    | (some e, t1) => (some e, t1)
    | (none, t1) => setDNSLoop env c rest t1

/-- The end of `postBridge`: gateway, then DNS servers. -/
def postBridgeTail (env : Env) (c : container) (index : Nat) (n : Nic) (t : Trace) :
    Option GoError × Trace :=
  let gw : Option GoError × Trace :=
    if n.Config.Gateway ≠ "" then setGateway env c index n.Config.Gateway t else (none, t)
  match gw with
  | (some e, t1) => (some e, t1)
  | (none, t1) => setDNSLoop env c n.Config.DNS t1

def postBridge (env : Env) (c : container) (index : Nat) (n : Nic) (t : Trace) :
    Option GoError × Trace :=
  let name := containerLinkNameFmt c.id index
  let peerName := containerPeerNameFmt name
  match call env t (.LinkByName peerName) with
  | (peer, t1) =>
  match peer.err with
  | some e => (some (.mk ("get peer: " ++ e)), t1)
  | none =>
  match call env t1 (.LinkSetUp peerName) with
  | (up, t2) =>
  match up.err with
  | some e => (some (.mk ("set peer up: " ++ e)), t2)
  | none =>
  match call env t2 (.LinkSetNsPid peerName c.PID) with
  | (moved, t3) =>
  match moved.err with
  | some e => (some (.mk ("set ns pid: " ++ e)), t3)
  | none =>
  let dev := "eth" ++ toString index
  match runAndWait env
      (systemCommand env t3 "ip"
        ["netns", "exec", toString c.id, "ip", "link", "set", peerName, "name", dev])
      "failed to rename device: " t3 with
  | (some e, t4) => (some e, t4)
  | (none, t4) =>
  if n.Config.Dhcp then
    -- start a dhcpc inside the container; the result of RunCmd is dropped
    let t5 := (call env t4 (.RunCmd (systemCommand env t4 "ip"
      ["netns", "exec", toString c.id, "udhcpc", "-q", "-i", dev, "-s",
       "/usr/share/udhcp/simple.script"]))).2
    postBridgeTail env c index n t5
  else if n.Config.CIDR ≠ "" then
    match env.ParseCIDR n.Config.CIDR with
    | some e => (some (.mk e), t4)
    | none =>
    -- putting the interface up
    match runAndWait env
        (systemCommand env t4 "ip"
          ["netns", "exec", toString c.id, "ip", "link", "set", "dev", dev, "up"])
        "error brinding interface up: " t4 with
    | (some e, t5) => (some e, t5)
    | (none, t5) =>
    -- setting the ip address
    match runAndWait env
        (systemCommand env t5 "ip"
          ["netns", "exec", toString c.id, "ip", "address", "add", n.Config.CIDR, "dev", dev])
        "error settings interface ip: " t5 with
    | (some e, t6) => (some e, t6)
    | (none, t6) => postBridgeTail env c index n t6
  else postBridgeTail env c index n t4

def postZerotierNetwork (env : Env) (c : container) (netID : String) (t : Trace) :
    Option GoError × Trace :=
  let netcmd : Command :=
    { ID := "net-" ++ toString c.id, Command := zeroTierCommand, Route := "",
      Arguments := .map [("netns", .int c.id), ("zerotier", .str netID)] }
  match call env t (.RunCmd netcmd) with
  | (r, t1) => (r.err.map GoError.mk, t1)

def postDefaultNetwork (env : Env) (c : container) (i : Nat) (_net : Nic) (t : Trace) :
    Option GoError × Trace :=
  postBridge env c i (defnet env c) t

def postVxlanNetwork (env : Env) (c : container) (idx : Nat) (net : Nic) (t : Trace) :
    Option GoError × Trace :=
  postBridge env c idx net t

def postVlanNetwork (env : Env) (c : container) (idx : Nat) (net : Nic) (t : Trace) :
    Option GoError × Trace :=
  postBridge env c idx net t

/-- Body of the loop of `postStartIsolatedNetworking` for one NIC: the `switch` on
`network.Type`; a type without a case leaves `err` at `nil`. -/
def postStartNic (env : Env) (c : container) (idx : Nat) (network : Nic) (t : Trace) :
    Option GoError × Trace :=
  if network.NicType = "vxlan" then postVxlanNetwork env c idx network t
  else if network.NicType = "vlan" then postVlanNetwork env c idx network t
  else if network.NicType = "zerotier" then postZerotierNetwork env c network.ID t
  else if network.NicType = "default" then postDefaultNetwork env c idx network t
  else (none, t)

/-- The loop of `postStartIsolatedNetworking`, started at index `idx`: an error is
only logged. -/
def postStartLoop (env : Env) (c : container) : Nat → List Nic → Trace → Trace
  | _, [], t => t
  | idx, network :: rest, t =>
    postStartLoop env c (idx + 1) rest (postStartNic env c idx network t).2

def postStartIsolatedNetworking (env : Env) (c : container) (t : Trace) : Option GoError × Trace :=
  match namespace_ env c t with
  | (some e, t1) => (some e, t1)
  | (none, t1) => (none, postStartLoop env c 0 c.Args.Nics t1)

/-! ## Tear-down (`network.go`) -/

def forwardId (c : container) (host cont : Int) : String :=
  "socat-" ++ toString c.id ++ "-" ++ toString host ++ "-" ++ toString cont

/-- The loop of `unPortForward` over the port map. -/
def unPortForwardLoop (env : Env) (c : container) : List (Int × Int) → Trace → Trace
  | [], t => t
  | (host, cont) :: rest, t =>
    unPortForwardLoop env c rest (call env t (.Kill (forwardId c host cont))).2

def unPortForward (env : Env) (c : container) (t : Trace) : Trace :=
  unPortForwardLoop env c c.Args.Port t

def unBridge (env : Env) (c : container) (idx : Nat) (_n : Nic) (ovs : Option Nat) (t : Trace) :
    Trace :=
  let name := containerLinkNameFmt c.id idx
  match ovs with
  | some ovsId =>
    (call env t (.dispatchSync ovsId
      { ID := "", Command := "ovs.port-del", Route := "",
        Arguments := .map [("port", .str name)] })).2
  | none =>
    match call env t (.LinkByName name) with
    | (link, t1) =>
      match link.err with
      | some _ => t1
      | none => (call env t1 (.LinkDel name)).2

/-- Body of the loop of `destroyNetwork` for one NIC. -/
def destroyNic (env : Env) (c : container) (idx : Nat) (network : Nic) (t : Trace) : Trace :=
  if network.NicType = "vxlan" ∨ network.NicType = "vlan" then
    match call env t (.getOneWithTags OVSTag) with
    | (ovs, t1) => unBridge env c idx network ovs.ref t1
  else if network.NicType = "zerotier" then
    (call env t (.Kill ("net-" ++ toString c.id))).2
  else if network.NicType = "default" then
    unPortForward env c (unBridge env c idx network none t)
  else t

def destroyLoop (env : Env) (c : container) : Nat → List Nic → Trace → Trace
  | _, [], t => t
  | idx, network :: rest, t => destroyLoop env c (idx + 1) rest (destroyNic env c idx network t)

def destroyNetwork (env : Env) (c : container) (t : Trace) : Trace :=
  if c.Args.HostNetwork then t
  else
    let t1 := destroyLoop env c 0 c.Args.Nics t
    -- clean up namespace
    if c.PID > 0 then
      let targetNs := "/run/netns/" ++ toString c.id
      let t2 := (call env t1 (.Unmount targetNs 0)).2
      (call env t2 (.RemoveAll targetNs)).2
    else t1

/-! ## Lifecycle (`container.go`) -/

def newContainer (cfg : Config) (id : Nat) (route : String) (args : ContainerCreateArguments) :
    container :=
  let c : container :=
    { id := id, runner := none, route := route, Args := args, Root := "", PID := 0,
      channel := none }
  { c with Root := root cfg c }

def preStart (env : Env) (c : container) (t : Trace) : Option GoError × Trace :=
  if c.Args.HostNetwork then preStartHostNetworking env c t
  else preStartIsolatedNetworking env c t

def postStart (env : Env) (c : container) (t : Trace) : Option GoError × Trace :=
  if c.Args.HostNetwork then (none, t)
  else postStartIsolatedNetworking env c t

/-- Method `cleanup`: `c.channel.Close()` comes first; `channel` is an interface value and
calling a method on the `nil` interface is a run-time panic.  The deferred
`c.mgr.unset_container(c.id)` runs on both ways out. -/
def cleanup (env : Env) (c : container) (t : Trace) : Outcome Unit × Trace :=
  match c.channel with
  | none =>
    (.panicked "invalid memory address or nil pointer dereference",
      (call env t (.unset_container c.id)).2)
  | some ch =>
    let t1 := (call env t (.channelClose ch)).2
    let t2 := destroyNetwork env c t1
    let t3 := (call env t2 (.unMountAll c.id)).2
    (.ret (), (call env t3 (.unset_container c.id)).2)

/-- The deferred function of `Start`: with a non-nil `err` it runs `cleanup`; a
panic of `cleanup` replaces the return of `Start`. -/
def startReturn (env : Env) (c : container) (err : Option GoError) (t : Trace) :
    Outcome (Option GoError) × container × Trace :=
  match err with
  | none => (.ret none, c, t)
  | some e =>
    match cleanup env c t with
    | (.ret _, t1) => (.ret (some e), c, t1)
    | (.panicked m, t1) => (.panicked m, c, t1)

/-- The command `Start` hands to `NewRunner`. -/
def extCmd (env : Env) (c : container) : Command :=
  let coreID := "core-" ++ toString c.id
  let args := ["-hostname", c.Args.Hostname]
  let args := if !c.Args.Privileged then args ++ ["-unprivileged"] else args
  { ID := coreID, Route := c.route, Command := "",
    Arguments := .container "/coreX" (root env.cfg c) "/" c.Args.HostNetwork args
      [("HOME", "/"), ("PATH", "/usr/local/sbin:/usr/local/bin:/usr/sbin:/usr/bin:/sbin:/bin")] }

/-- Method `Start`: returns how the call ends, the container record afterwards and the trace. -/
def Start (env : Env) (c : container) (t : Trace) :
    Outcome (Option GoError) × container × Trace :=
  match call env t (.sandbox c.id) with
  | (boxed, t1) =>
  match boxed.err with
  | some e => startReturn env c (some (.mk e)) t1
  | none =>
  match preStart env c t1 with
  | (some e, t2) => startReturn env c (some e) t2
  | (none, t2) =>
  match call env t2 (.NewRunner (extCmd env c)) with
  | (runner, t3) =>
  match runner.err with
  | some e => startReturn env c (some (.mk e)) t3
  | none => startReturn env { c with runner := some (extCmd env c).ID } none t3

/-! ## Specification side -/

/-- Trace after performing `step idx nic` for every NIC of the list, in list
order and whatever the steps return; the first NIC has index `s`. -/
def stepsTraceFrom (step : Nat → Nic → Trace → Option GoError × Trace) (s : Nat)
    (nics : List Nic) (t : Trace) : Trace :=
  (nics.enumFrom s).foldl (fun tr p => (step p.1 p.2 tr).2) t

/-- Trace after performing `step idx nic` for every NIC of the list, in list
order and whatever the steps return; the first NIC has index `0`. -/
def stepsTrace (step : Nat → Nic → Trace → Option GoError × Trace) (nics : List Nic)
    (t : Trace) : Trace :=
  stepsTraceFrom step 0 nics t

/-- The integer written by a decimal numeral: an optional sign followed by one or
more decimal digits; `none` for every other string. -/
def decimalValue (s : String) : Option Int :=
  let neg := s.data.head? = some '-'
  let body := if s.data.head? = some '-' ∨ s.data.head? = some '+' then s.data.tail else s.data
  if body ≠ [] ∧ body.all Char.isDigit then
    let n : Nat := Nat.ofDigits 10 (body.reverse.map fun ch => ch.toNat - '0'.toNat)
    some (if neg then - (n : Int) else (n : Int))
  else none

/-! ## Concrete inputs -/

def demoCfg : Config :=
  { BridgeIP := fun i => if i = 0 then 172 else if i = 1 then 18 else if i = 2 then 0 else 1,
    DefaultBridgeIP := "172.18.0.1", DefaultBridgeName := "core0",
    CommandSystem := "core.system", mountpoint := "/mnt" }

def okReply : Reply := { err := none, state := "success", data := "bridge", ref := none }

/-- A world in which every call succeeds, every link is a bridge and no container
carries the `ovs` tag. -/
def okEnv : Env :=
  { cfg := demoCfg, reply := fun _ _ => okReply, ParseMAC := fun _ => none,
    ParseCIDR := fun _ => none, Unmarshal := fun s => .ok s,
    uuid := fun t => "uuid-" ++ toString t.length }

/-- A world in which `sandbox()` fails and every other call succeeds. -/
def sandboxFailsEnv : Env :=
  { okEnv with
    reply := fun _ k =>
      match k with
      | .sandbox _ => { okReply with err := some "mount failed" }
      | _ => okReply }

def plainConfig : NetworkConfig := { Dhcp := false, CIDR := "", Gateway := "", DNS := [] }

def nicOf (ty id : String) : Nic :=
  { NicType := ty, ID := id, HWAddress := "", Config := plainConfig }

def demoArgs (nics : List Nic) : ContainerCreateArguments :=
  { Root := "/base", Mount := [], HostNetwork := false, Nics := nics, Port := [(8080, 80)],
    Privileged := false, Hostname := "t1", Tags := [] }

/-- Container 1 as `newContainer` returns it: no runner, no pid, no channel yet. -/
def freshContainer (nics : List Nic) : container :=
  newContainer demoCfg 1 "r" (demoArgs nics)

/-- Container 1 with a `default`, a `bridge` and another `default` NIC. -/
def mixedContainer : container :=
  freshContainer [nicOf "default" "", nicOf "bridge" "br0", nicOf "default" ""]

/-- A world in which the bind mount of the network namespace fails. -/
def mountFailsEnv : Env :=
  { okEnv with
    reply := fun _ k =>
      match k with
      | .Mount _ _ _ => { okReply with err := some "operation not permitted" }
      | _ => okReply }

/-- A world in which no link is found by name and every other call succeeds. -/
def linkMissingEnv : Env :=
  { okEnv with
    reply := fun _ k =>
      match k with
      | .LinkByName _ => { okReply with err := some "Link not found" }
      | _ => okReply }

/-- Container 1 with host networking and a non-empty NIC list, one NIC of a type
without a case; the PID hook has fired. -/
def hostContainer : container :=
  { freshContainer [nicOf "default" "", nicOf "wifi" "x", nicOf "vlan" "7"] with
    Args := { demoArgs [nicOf "default" "", nicOf "wifi" "x", nicOf "vlan" "7"] with
              HostNetwork := true }
    PID := 4242
    channel := some 7 }

/-- Container 1 after the PID hook: channel set, pid known, one `default` NIC. -/
def runningContainer : container :=
  { freshContainer [nicOf "default" ""] with PID := 4242, channel := some 7 }

/-! ### Commands of `postBridge` (specification side) -/

/-- A process-manager call that starts `ip netns exec <id> ip address add ...`. -/
def isAddressAdd (k : Call) : Bool :=
  match k with
  | .RunCmd cmd =>
    match cmd.Arguments with
    | .system name args _ => name == "ip" && (args.drop 3).take 3 == ["ip", "address", "add"]
    | _ => false
  | _ => false

/-- The text that the calls of a trace append to the file at `path`, in order; the
file afterwards is its previous content followed by this text. -/
def appendedText (path : String) : Trace → String
  | [] => ""
  | k :: rest =>
    match k with
    | .appendFile p text =>
      if p = path then text ++ appendedText path rest else appendedText path rest
    | _ => appendedText path rest

/-- The text written for a list of name servers: for each one a newline, then the
line `nameserver <dns>` and its newline. -/
def nameserverLines : List String → String
  | [] => ""
  | d :: ds => ("\nnameserver " ++ d ++ "\n") ++ nameserverLines ds

/-- Path of the `resolv.conf` of the container. -/
def resolvConf (env : Env) (c : container) : String :=
  pathJoin [root env.cfg c, "etc", "resolv.conf"]

/-! ### Port forwards (`network.go`) -/

/-- The `socat` command `setPortForwards` builds for one entry of the port map. -/
def socatCmd (env : Env) (c : container) (ip : List Nat) (host cont : Int) : Command :=
  { ID := forwardId c host cont, Command := env.cfg.CommandSystem, Route := "",
    Arguments := .system "socat"
      ["tcp-listen:" ++ toString host ++ ",reuseaddr,fork",
       "tcp-connect:" ++ ipString ip ++ ":" ++ toString cont] true }

/-- The loop of `setPortForwards` over the port map; the result of `RunCmd` is dropped. -/
def setPortForwardsLoop (env : Env) (c : container) (ip : List Nat) :
    List (Int × Int) → Trace → Trace
  | [], t => t
  | (host, cont) :: rest, t =>
    setPortForwardsLoop env c ip rest (call env t (.RunCmd (socatCmd env c ip host cont))).2

def setPortForwards (env : Env) (c : container) (t : Trace) : Option GoError × Trace :=
  let ip := getDefaultIP env.cfg c
  (none, setPortForwardsLoop env c ip c.Args.Port t)

/-- Ids of the commands a trace starts with `RunCmd` (specification side). -/
def startedIds : Trace → List String
  | [] => []
  | k :: rest =>
    match k with
    | .RunCmd cmd => cmd.ID :: startedIds rest
    | _ => startedIds rest

/-- Ids a trace kills with `Kill` (specification side). -/
def killedIds : Trace → List String
  | [] => []
  | k :: rest =>
    match k with
    | .Kill id => id :: killedIds rest
    | _ => killedIds rest

/-- Container 1 with two port forwards. -/
def forwardingContainer : container :=
  { runningContainer with
    Args := { demoArgs [nicOf "default" ""] with Port := [(8080, 80), (8443, 443)] } }

/-- Container 1 with an empty port map. -/
def noPortContainer : container :=
  { runningContainer with Args := { demoArgs [nicOf "default" ""] with Port := [] } }

/-! ## Argument maps (`agent/lib/pm/args.go`) -/

/-- A value held in a `map[string]interface{}`, by dynamic type: `ints` is `[]int`,
`strings` is `[]string`, `array` is `[]interface{}`, `object` is
`map[string]interface{}`. -/
inductive Value where
  | null
  | bool (b : Bool)
  | number (i : Int)
  | str (s : String)
  | ints (l : List Int)
  | strings (l : List String)
  | array (l : List Value)
  | object (kv : List (String × Value))

/-- The `MapArgs` record; `data` is a Go map, the list holds its entries, and
`controller` is a pointer (`none` for `nil`). -/
structure MapArgs where
  tag : String
  controller : Option String
  data : List (String × Value)

/-- The loop of `Clone` over the entries of `args.data`, giving the entries written
to the new map.  With `deep` the type switch has the cases `[]int` and `[]string`
and no default case. -/
def cloneLoop (deep : Bool) : List (String × Value) → List (String × Value)
  | [] => []
  | (k, v) :: rest =>
    if deep then
      match v with
      | .ints tv => (k, .ints tv) :: cloneLoop deep rest
      | .strings tv => (k, .strings tv) :: cloneLoop deep rest
      | _ => cloneLoop deep rest
    else (k, v) :: cloneLoop deep rest

def MapArgs.Clone (args : MapArgs) (deep : Bool) : MapArgs :=
  { tag := args.tag, controller := args.controller, data := cloneLoop deep args.data }

/-- Keys of an argument map. -/
def MapArgs.keys (args : MapArgs) : List String :=
  args.data.map Prod.fst

/-- Arguments with a scalar, a map and two slices. -/
def demoMapArgs : MapArgs :=
  { tag := "t", controller := some "main",
    data := [("name", .str "x"), ("env", .object [("HOME", .str "/")]),
             ("ports", .ints [80, 443]), ("args", .strings ["-v"])] }

/-! ## Samples (`core0/stats/stats.go`) -/

/-- Two's complement wrap-around of `int64` arithmetic. -/
def wrapInt64 (x : Int) : Int :=
  (x + 2 ^ 63) % 2 ^ 64 - 2 ^ 63

/-- The `float64` operations `Feed` uses, kept abstract: addition, division, the
comparison `>` and the conversion `float64(count)`. -/
structure FloatOps (F : Type) where
  add : F → F → F
  div : F → F → F
  gt : F → F → Bool
  ofUint : Nat → F

/-- The `Sample` record; `Count` is a `uint` (64 bits), `Start` an `int64`. -/
structure Sample (F : Type) where
  Avg : F
  Total : F
  Max : F
  Count : Nat
  Start : Int
deriving DecidableEq, Repr

/-- Method `Feed`: the sample after the call and the returned pointer (`none` for
`nil`); the result is `none` when the integer division by `duration` panics. -/
def Sample.Feed {F : Type} (ops : FloatOps F) (m : Sample F) (value : F)
    (now duration : Int) : Option (Sample F × Option (Sample F)) :=
  if duration = 0 then none
  else
    let period := wrapInt64 (wrapInt64 (Int.tdiv now duration) * duration)
    if period ≠ 0 ∧ m.Start < period then
      -- start a new period
      some ({ Avg := value, Total := value, Max := value, Count := 1, Start := period },
            some m)
    else
      let start := if m.Start = 0 then period else m.Start
      let total := ops.add m.Total value
      let count := (m.Count + 1) % 2 ^ 64
      let avg := ops.div total (ops.ofUint count)
      let max := if ops.gt value m.Max then value else m.Max
      some ({ Avg := avg, Total := total, Max := max, Count := count, Start := start }, none)

/-- Integer stand-in for the `float64` operations, for concrete runs. -/
def intOps : FloatOps Int :=
  { add := fun a b => a + b, div := fun a b => a / b, gt := fun a b => decide (a > b),
    ofUint := fun n => (n : Int) }

/-- A sample whose counter holds the largest `uint`. -/
def fullSample : Sample Int :=
  { Avg := 1, Total := 5, Max := 3, Count := 2 ^ 64 - 1, Start := 120 }

/-! ## Host state (specification side)

The part of the host that tear-down touches: links, the mount and the file of the
network namespace, running commands.  Only the calls of the tear-down path are
interpreted; every other call leaves this state unchanged. -/

/-- Host state: names of the links in the host namespace, the veth pairs among them,
mounted targets, existing files, ids of the running commands, and the id of the
live container tagged `ovs` if there is one. -/
structure Host where
  links : List String
  veths : List (String × String)
  mounts : List String
  files : List String
  running : List String
  ovs : Option Nat
deriving DecidableEq, Repr

/-- The other ends of the veth pairs that `n` is an end of. -/
def Host.peers (h : Host) (n : String) : List String :=
  (h.veths.filter fun p => p.1 = n).map Prod.snd
    ++ (h.veths.filter fun p => p.2 = n).map Prod.fst

/-- Effect of a call on the host.  Deleting a link removes it and, for a veth, its
other end; `Kill` stops the command with that id; `Unmount` removes the mount;
`RemoveAll` removes the file unless something is still mounted on it. -/
def hostApply (h : Host) : Call → Host
  | .LinkDel n => { h with links := h.links.filter fun x => x ≠ n ∧ x ∉ h.peers n }
  | .Kill id => { h with running := h.running.filter fun x => x ≠ id }
  | .Unmount target _ => { h with mounts := h.mounts.filter fun x => x ≠ target }
  | .RemoveAll p =>
    if p ∈ h.mounts then h else { h with files := h.files.filter fun x => x ≠ p }
  | _ => h

/-- Answer of the host to a call: a link is found when it exists, an unmount fails
when nothing is mounted, the lookup of the `ovs` container answers from the state. -/
def hostReply (h : Host) : Call → Reply
  | .LinkByName n =>
    if n ∈ h.links then okReply else { okReply with err := some "Link not found" }
  | .Unmount target _ =>
    if target ∈ h.mounts then okReply else { okReply with err := some "invalid argument" }
  | .RemoveAll p =>
    if p ∈ h.mounts then { okReply with err := some "device or resource busy" } else okReply
  | .getOneWithTags tag => { okReply with ref := if tag = OVSTag then h.ovs else none }
  | _ => okReply

/-- Host state after the calls of a trace, starting from `h0`. -/
def replay (h0 : Host) (t : Trace) : Host :=
  t.foldl hostApply h0

/-- The world in which the host starts in state `h0` and answers from its state. -/
def hostEnv (cfg : Config) (h0 : Host) : Env :=
  { cfg := cfg, reply := fun t k => hostReply (replay h0 t) k, ParseMAC := fun _ => none,
    ParseCIDR := fun _ => none, Unmarshal := fun s => .ok s,
    uuid := fun t => "uuid-" ++ toString t.length }

/-- Host state after one run of `destroyNetwork` on a host in state `h`. -/
def destroyedHost (cfg : Config) (c : container) (h : Host) : Host :=
  replay h (destroyNetwork (hostEnv cfg h) c [])

/-! ### Tear-down as a function of the host state (used in the proofs) -/

/-- Host-level `unBridge` without OVS: the link is deleted when it is found. -/
def delLinkH (n : String) (h : Host) : Host :=
  if n ∈ h.links then hostApply h (.LinkDel n) else h

/-- Host-level `unPortForward`. -/
def unPortForwardH (c : container) : List (Int × Int) → Host → Host
  | [], h => h
  | (host, cont) :: rest, h =>
    unPortForwardH c rest (hostApply h (.Kill (forwardId c host cont)))

/-- Host-level body of the loop of `destroyNetwork`. -/
def destroyNicH (c : container) (idx : Nat) (network : Nic) (h : Host) : Host :=
  if network.NicType = "vxlan" ∨ network.NicType = "vlan" then
    match h.ovs with
    | some _ => h
    | none => delLinkH (containerLinkNameFmt c.id idx) h
  else if network.NicType = "zerotier" then
    hostApply h (.Kill ("net-" ++ toString c.id))
  else if network.NicType = "default" then
    unPortForwardH c c.Args.Port (delLinkH (containerLinkNameFmt c.id idx) h)
  else h

def destroyLoopH (c : container) : Nat → List Nic → Host → Host
  | _, [], h => h
  | idx, network :: rest, h => destroyLoopH c (idx + 1) rest (destroyNicH c idx network h)

/-- Host-level clean-up of the namespace file. -/
def unmountNsH (c : container) (h : Host) : Host :=
  hostApply (hostApply h (.Unmount ("/run/netns/" ++ toString c.id) 0))
    (.RemoveAll ("/run/netns/" ++ toString c.id))

def destroyNetworkH (c : container) (h : Host) : Host :=
  if c.Args.HostNetwork then h
  else
    let h1 := destroyLoopH c 0 c.Args.Nics h
    if c.PID > 0 then unmountNsH c h1 else h1

/-- A host with the leftovers of container 1: its veth `cont1-0`, the namespace
file and mount, one port forward, and an unrelated bridge and command. -/
def dirtyHost : Host :=
  { links := ["core0", "cont1-0", "cont2-0"], veths := [("cont1-0", "cont1-0p")],
    mounts := ["/run/netns/1"], files := ["/run/netns/1", "/run/netns/2"],
    running := ["socat-1-8080-80", "core-2"], ovs := none }

/-- State `a` holds nothing that state `b` does not hold. -/
def Host.Sub (a b : Host) : Prop :=
  (∀ x, x ∈ a.links → x ∈ b.links) ∧ (∀ x, x ∈ a.running → x ∈ b.running) ∧
  (∀ x, x ∈ a.mounts → x ∈ b.mounts) ∧ (∀ x, x ∈ a.files → x ∈ b.files) ∧
  a.ovs = b.ovs

/-- Nothing is left on the host for NIC `idx` of the container. -/
def NicClean (c : container) (idx : Nat) (network : Nic) (h : Host) : Prop :=
  (network.NicType = "default" →
    containerLinkNameFmt c.id idx ∉ h.links ∧
    ∀ p ∈ c.Args.Port, forwardId c p.1 p.2 ∉ h.running) ∧
  (network.NicType = "zerotier" → "net-" ++ toString c.id ∉ h.running) ∧
  (network.NicType = "vxlan" ∨ network.NicType = "vlan" → h.ovs = none →
    containerLinkNameFmt c.id idx ∉ h.links)

/-! ## Arithmetic of the default address -/

theorem and_ff00_shiftRight (x : Nat) : (x &&& 0xff00) >>> 8 = (x >>> 8) &&& 0xff := by
  apply Nat.eq_of_testBit_eq
  intro i
  have h : (0xff00 : Nat) = 0xff <<< 8 := by decide
  rw [h]
  simp only [Nat.testBit_shiftRight, Nat.testBit_and, Nat.testBit_shiftLeft]
  simp

theorem and_ff_eq_mod (x : Nat) : x &&& 0xff = x % 256 := by
  have := Nat.and_pow_two_sub_one_eq_mod x 8
  simpa using this

theorem getDefaultIP_eq (cfg : Config) (c : container) :
    getDefaultIP cfg c
      = IPv4 (cfg.BridgeIP 0) (cfg.BridgeIP 1) ((c.id + 1) / 256 % 256) ((c.id + 1) % 256) := by
  unfold getDefaultIP
  simp only [and_ff00_shiftRight, and_ff_eq_mod]
  simp only [Nat.shiftRight_eq_div_pow]
  congr 1 <;> omega

/-- C8: for every container id `i`, `getDefaultIP` is the IPv4 address with octets
`BridgeIP[0]`, `BridgeIP[1]`, `((i+1)>>8) & 0xff` and `(i+1) & 0xff`. -/
theorem getDefaultIP_law (cfg : Config) (c : container) :
    getDefaultIP cfg c
      = IPv4 (cfg.BridgeIP 0) (cfg.BridgeIP 1)
          (((c.id + 1) >>> 8) &&& 0xff) ((c.id + 1) &&& 0xff) := by
  rw [getDefaultIP_eq, and_ff_eq_mod, and_ff_eq_mod, Nat.shiftRight_eq_div_pow]

/-- C9: for every id `i` with `1 ≤ i ≤ 65535` the default address differs from the
address of the bridge, `BridgeIP[0].BridgeIP[1].0.1`. -/
theorem getDefaultIP_ne_bridge (cfg : Config) (c : container)
    (h1 : 1 ≤ c.id) (h2 : c.id ≤ 65535) :
    getDefaultIP cfg c ≠ IPv4 (cfg.BridgeIP 0) (cfg.BridgeIP 1) 0 1 := by
  rw [getDefaultIP_eq]
  intro h
  simp only [IPv4, List.cons.injEq, and_true, true_and] at h
  omega

theorem getDefaultIP_ne_bridge_witness :
    getDefaultIP demoCfg (freshContainer [])
      ≠ IPv4 (demoCfg.BridgeIP 0) (demoCfg.BridgeIP 1) 0 1 :=
  getDefaultIP_ne_bridge demoCfg (freshContainer []) (by decide) (by decide)

/-- C10: default addresses of different 16-bit ids are different, and for
consecutive ids `i`, `i+1` with `i+1` and `i+2` in the same block of 256 the last
octet grows by exactly one while the first fifteen bytes (so the other three
octets) agree. -/
theorem getDefaultIP_distinct (cfg : Config) :
    (∀ c d : container, c.id < 65536 → d.id < 65536 → c.id ≠ d.id →
        getDefaultIP cfg c ≠ getDefaultIP cfg d) ∧
    (∀ c d : container, d.id = c.id + 1 → d.id < 65536 →
        (c.id + 1) / 256 = (c.id + 2) / 256 →
        (getDefaultIP cfg d).drop 15 = [(getDefaultIP cfg c).getD 15 0 + 1] ∧
        (getDefaultIP cfg d).take 15 = (getDefaultIP cfg c).take 15) := by
  refine ⟨?_, ?_⟩
  · intro c d hc hd hne h
    rw [getDefaultIP_eq, getDefaultIP_eq] at h
    simp only [IPv4, List.cons.injEq, and_true, true_and] at h
    omega
  · intro c d hd hlt hblock
    rw [getDefaultIP_eq, getDefaultIP_eq, hd]
    simp only [IPv4, List.drop_succ_cons, List.drop_zero, List.take_succ_cons, List.take_zero,
      List.getD_cons_succ, List.getD_cons_zero, List.cons.injEq, and_true, true_and]
    omega

theorem getDefaultIP_distinct_witness :
    getDefaultIP demoCfg (freshContainer []) ≠
        getDefaultIP demoCfg { freshContainer [] with id := 2 } ∧
    ((getDefaultIP demoCfg { freshContainer [] with id := 2 }).drop 15
        = [(getDefaultIP demoCfg (freshContainer [])).getD 15 0 + 1] ∧
      (getDefaultIP demoCfg { freshContainer [] with id := 2 }).take 15
        = (getDefaultIP demoCfg (freshContainer [])).take 15) :=
  ⟨(getDefaultIP_distinct demoCfg).1 (freshContainer []) { freshContainer [] with id := 2 }
      (by decide) (by decide) (by decide),
   (getDefaultIP_distinct demoCfg).2 (freshContainer []) { freshContainer [] with id := 2 }
      (by decide) (by decide) (by decide)⟩

/-! ## Failure path of `Start` -/

/-- C1, evaluated on a container as `newContainer` returns it: when `sandbox()`
fails, `Start` does not return that error.  The deferred `cleanup` panics on the
unset channel; `NewRunner` is not called and no runner is recorded. -/
theorem Start_sandbox_failure_panics :
    Start sandboxFailsEnv (freshContainer [nicOf "default" ""]) []
      = (.panicked "invalid memory address or nil pointer dereference",
         freshContainer [nicOf "default" ""],
         [.sandbox 1, .unset_container 1]) := by
  decide

/-- C2, evaluated on a container whose PID hook never fired: `cleanup` panics at
`c.channel.Close()`; neither `destroyNetwork` nor `unMountAll` runs, only the
deferred `unset_container`. -/
theorem cleanup_unset_channel_panics :
    cleanup okEnv (freshContainer [nicOf "default" ""]) []
      = (.panicked "invalid memory address or nil pointer dereference",
         [.unset_container 1]) := by
  decide

/-! ## The NIC loops -/

theorem stepsTraceFrom_nil (step : Nat → Nic → Trace → Option GoError × Trace) (s : Nat)
    (t : Trace) : stepsTraceFrom step s [] t = t := rfl

theorem stepsTraceFrom_cons (step : Nat → Nic → Trace → Option GoError × Trace) (s : Nat)
    (n : Nic) (rest : List Nic) (t : Trace) :
    stepsTraceFrom step s (n :: rest) t = stepsTraceFrom step (s + 1) rest (step s n t).2 := rfl

/-- The pre-start loop stops at the first NIC whose step fails. -/
theorem preStartLoop_abort (env : Env) (c : container) :
    ∀ (nics : List Nic) (s k : Nat) (t : Trace) (nic : Nic) (e : GoError),
      nics[k]? = some nic →
      (preStartNic env c (s + k) nic
          (stepsTraceFrom (preStartNic env c) s (nics.take k) t)).1 = some e →
      (∀ i, i < k → ∀ ni, nics[i]? = some ni →
          (preStartNic env c (s + i) ni
            (stepsTraceFrom (preStartNic env c) s (nics.take i) t)).1 = none) →
      preStartLoop env c s nics t
        = (some e, stepsTraceFrom (preStartNic env c) s (nics.take (k + 1)) t) := by
  intro nics
  induction nics with
  | nil => intro s k t nic e hk; simp at hk
  | cons n rest ih =>
    intro s k t nic e hk hfail hmin
    cases k with
    | zero =>
      simp only [List.getElem?_cons_zero, Option.some.injEq] at hk
      subst hk
      simp only [List.take_zero, stepsTraceFrom_nil, Nat.add_zero] at hfail
      simp only [List.take_succ_cons, List.take_zero, stepsTraceFrom_cons, stepsTraceFrom_nil,
        preStartLoop]
      cases hstep : preStartNic env c s n t with
      | mk r t1 =>
        rw [hstep] at hfail
        simp only at hfail
        subst hfail
        rfl
    | succ k =>
      have h0 := hmin 0 (Nat.succ_pos k) n (by simp)
      simp only [List.take_zero, stepsTraceFrom_nil, Nat.add_zero] at h0
      simp only [List.getElem?_cons_succ] at hk
      have hrec := ih (s + 1) k (preStartNic env c s n t).2 nic e hk
        (by
          have := hfail
          simp only [List.take_succ_cons, stepsTraceFrom_cons] at this
          rwa [show s + 1 + k = s + (k + 1) by omega])
        (by
          intro i hi ni hni
          have := hmin (i + 1) (by omega) ni (by simpa using hni)
          simp only [List.take_succ_cons, stepsTraceFrom_cons] at this
          rwa [show s + 1 + i = s + (i + 1) by omega])
      simp only [List.take_succ_cons, stepsTraceFrom_cons]
      rw [← hrec]
      cases hstep : preStartNic env c s n t with
      | mk r t1 =>
        rw [hstep] at h0
        simp only at h0
        subst h0
        simp only [preStartLoop, hstep]

/-- Without a failing step the pre-start loop performs every step and returns `nil`. -/
theorem preStartLoop_all (env : Env) (c : container) :
    ∀ (nics : List Nic) (s : Nat) (t : Trace),
      (∀ i ni, nics[i]? = some ni →
          (preStartNic env c (s + i) ni
            (stepsTraceFrom (preStartNic env c) s (nics.take i) t)).1 = none) →
      preStartLoop env c s nics t = (none, stepsTraceFrom (preStartNic env c) s nics t) := by
  intro nics
  induction nics with
  | nil => intro s t _; rfl
  | cons n rest ih =>
    intro s t hall
    have h0 := hall 0 n (by simp)
    simp only [List.take_zero, stepsTraceFrom_nil, Nat.add_zero] at h0
    have hrec := ih (s + 1) (preStartNic env c s n t).2
      (by
        intro i ni hni
        have := hall (i + 1) ni (by simpa using hni)
        simp only [List.take_succ_cons, stepsTraceFrom_cons] at this
        rwa [show s + 1 + i = s + (i + 1) by omega])
    simp only [stepsTraceFrom_cons]
    rw [← hrec]
    cases hstep : preStartNic env c s n t with
    | mk r t1 =>
      rw [hstep] at h0
      simp only at h0
      subst h0
      simp only [preStartLoop, hstep]

theorem preStartNic_unknown (env : Env) (c : container) (idx : Nat) (nic : Nic) (t : Trace)
    (h1 : nic.NicType ≠ "vxlan") (h2 : nic.NicType ≠ "vlan") (h3 : nic.NicType ≠ "default")
    (h4 : nic.NicType ≠ "zerotier") :
    preStartNic env c idx nic t
      = (some (.mk ("unkown network type '" ++ nic.NicType ++ "'")), t) := by
  simp only [preStartNic, h1, h2, h3, h4, if_false]

/-- C3: `preStartIsolatedNetworking` aborts on the first failing NIC.  If `k` is
the smallest index whose pre-start step fails, the result is the error of NIC `k`
and the trace is the one of the steps `0..k`, so nothing is done for a later NIC;
if no step fails the result is `nil` and the trace is the one of all steps in list
order.  A NIC whose type has no case fails with the `unkown network type` error
and performs nothing. -/
theorem preStartIsolatedNetworking_first_failure (env : Env) (c : container) (t : Trace) :
    (∀ k nic e, c.Args.Nics[k]? = some nic →
        (preStartNic env c k nic
          (stepsTrace (preStartNic env c) (c.Args.Nics.take k) t)).1 = some e →
        (∀ i, i < k → ∀ ni, c.Args.Nics[i]? = some ni →
          (preStartNic env c i ni
            (stepsTrace (preStartNic env c) (c.Args.Nics.take i) t)).1 = none) →
        preStartIsolatedNetworking env c t
          = (some e, stepsTrace (preStartNic env c) (c.Args.Nics.take (k + 1)) t)) ∧
    ((∀ i ni, c.Args.Nics[i]? = some ni →
          (preStartNic env c i ni
            (stepsTrace (preStartNic env c) (c.Args.Nics.take i) t)).1 = none) →
        preStartIsolatedNetworking env c t
          = (none, stepsTrace (preStartNic env c) c.Args.Nics t)) ∧
    (∀ idx nic t1, nic.NicType ≠ "vxlan" → nic.NicType ≠ "vlan" → nic.NicType ≠ "default" →
        nic.NicType ≠ "zerotier" →
        preStartNic env c idx nic t1
          = (some (.mk ("unkown network type '" ++ nic.NicType ++ "'")), t1)) := by
  refine ⟨?_, ?_, ?_⟩
  · intro k nic e hk hfail hmin
    have h := preStartLoop_abort env c c.Args.Nics 0 k t nic e hk
      (by simpa [stepsTrace] using hfail)
      (by intro i hi ni hni; simpa [stepsTrace] using hmin i hi ni hni)
    simpa [preStartIsolatedNetworking, stepsTrace] using h
  · intro hall
    have h := preStartLoop_all env c c.Args.Nics 0 t
      (by intro i ni hni; simpa [stepsTrace] using hall i ni hni)
    simpa [preStartIsolatedNetworking, stepsTrace] using h
  · intro idx nic t1 h1 h2 h3 h4
    exact preStartNic_unknown env c idx nic t1 h1 h2 h3 h4

theorem preStartIsolatedNetworking_first_failure_witness :
    preStartIsolatedNetworking okEnv mixedContainer []
        = (some (.mk "unkown network type 'bridge'"),
           [.LinkByName "core0",
            .LinkAdd { Name := "cont1-0", FlagUp := true, MTU := 1500, TxQLen := 1000,
                       PeerName := "cont1-0p" },
            .LinkSetMaster "cont1-0" "core0",
            .LinkByName "cont1-0p"]) ∧
    preStartIsolatedNetworking okEnv (freshContainer [nicOf "zerotier" "n", nicOf "default" ""]) []
        = (none,
           [.LinkByName "core0",
            .LinkAdd { Name := "cont1-1", FlagUp := true, MTU := 1500, TxQLen := 1000,
                       PeerName := "cont1-1p" },
            .LinkSetMaster "cont1-1" "core0",
            .LinkByName "cont1-1p"]) ∧
    preStartNic okEnv mixedContainer 1 (nicOf "bridge" "br0") []
        = (some (.mk "unkown network type 'bridge'"), []) :=
  ⟨((preStartIsolatedNetworking_first_failure okEnv mixedContainer []).1 1
        (nicOf "bridge" "br0") (.mk "unkown network type 'bridge'") (by decide) (by decide)
        (by
          intro i hi ni hni
          obtain rfl : i = 0 := by omega
          obtain rfl : nicOf "default" "" = ni := by simpa [mixedContainer, freshContainer,
            newContainer, demoArgs] using hni
          decide)).trans (by decide),
   ((preStartIsolatedNetworking_first_failure okEnv
        (freshContainer [nicOf "zerotier" "n", nicOf "default" ""]) []).2.1
        (by
          intro i ni hni
          match i, hni with
          | 0, hni =>
            obtain rfl : nicOf "zerotier" "n" = ni := by simpa [freshContainer,
              newContainer, demoArgs] using hni
            decide
          | 1, hni =>
            obtain rfl : nicOf "default" "" = ni := by simpa [freshContainer,
              newContainer, demoArgs] using hni
            decide
          | (j + 2), hni => simp [freshContainer, newContainer, demoArgs] at hni)).trans
      (by decide),
   (preStartIsolatedNetworking_first_failure okEnv mixedContainer []).2.2 1
        (nicOf "bridge" "br0") [] (by decide) (by decide) (by decide) (by decide)⟩

/-! ### Post-start -/

theorem postStartLoop_eq (env : Env) (c : container) :
    ∀ (nics : List Nic) (s : Nat) (t : Trace),
      postStartLoop env c s nics t = stepsTraceFrom (postStartNic env c) s nics t := by
  intro nics
  induction nics with
  | nil => intro s t; rfl
  | cons n rest ih => intro s t; simp only [postStartLoop, stepsTraceFrom_cons, ih]

theorem namespace_trace (env : Env) (c : container) (t : Trace) :
    (namespace_ env c t).2
      = t ++ [.MkdirAll "/run/netns", .Create ("/run/netns/" ++ toString c.id),
              .Mount ("/proc/" ++ toString c.PID ++ "/ns/net")
                ("/run/netns/" ++ toString c.id) MS_BIND] := by
  simp only [namespace_, call]
  split <;> simp

/-- C4: `postStartIsolatedNetworking` is best effort per NIC.  When `namespace()`
succeeds it returns `nil` and its trace is the one of the post-start steps of
all NICs in list order, whatever those steps return; it returns an error exactly
when `namespace()` returns that error, and then only the three calls of
`namespace()` were made. -/
theorem postStartIsolatedNetworking_best_effort (env : Env) (c : container) (t : Trace) :
    ((namespace_ env c t).1 = none →
        postStartIsolatedNetworking env c t
          = (none, stepsTrace (postStartNic env c) c.Args.Nics (namespace_ env c t).2)) ∧
    (∀ e, (postStartIsolatedNetworking env c t).1 = some e
        ↔ (namespace_ env c t).1 = some e) ∧
    (∀ e, (namespace_ env c t).1 = some e →
        (postStartIsolatedNetworking env c t).2
          = t ++ [.MkdirAll "/run/netns", .Create ("/run/netns/" ++ toString c.id),
                  .Mount ("/proc/" ++ toString c.PID ++ "/ns/net")
                    ("/run/netns/" ++ toString c.id) MS_BIND]) := by
  refine ⟨?_, ?_, ?_⟩
  · intro h
    cases hns : namespace_ env c t with
    | mk r t1 =>
      rw [hns] at h
      simp only at h
      subst h
      simp only [postStartIsolatedNetworking, hns, postStartLoop_eq, stepsTrace]
  · intro e
    cases hns : namespace_ env c t with
    | mk r t1 =>
      cases r with
      | none => simp [postStartIsolatedNetworking, hns]
      | some e1 => simp [postStartIsolatedNetworking, hns]
  · intro e h
    rw [← namespace_trace]
    cases hns : namespace_ env c t with
    | mk r t1 =>
      rw [hns] at h
      simp only at h
      subst h
      simp only [postStartIsolatedNetworking, hns]

theorem postStartIsolatedNetworking_best_effort_witness :
    postStartIsolatedNetworking linkMissingEnv mixedContainer []
        = (none,
           [.MkdirAll "/run/netns", .Create "/run/netns/1",
            .Mount "/proc/0/ns/net" "/run/netns/1" MS_BIND,
            .LinkByName "cont1-0p", .LinkByName "cont1-2p"]) ∧
    (postStartIsolatedNetworking mountFailsEnv mixedContainer []).1
        = some (.mk "namespace mount: operation not permitted") ∧
    (postStartIsolatedNetworking mountFailsEnv mixedContainer []).2
        = [.MkdirAll "/run/netns", .Create "/run/netns/1",
           .Mount "/proc/0/ns/net" "/run/netns/1" MS_BIND] :=
  ⟨((postStartIsolatedNetworking_best_effort linkMissingEnv mixedContainer []).1
      (by decide)).trans (by decide),
   ((postStartIsolatedNetworking_best_effort mountFailsEnv mixedContainer []).2.1
      (.mk "namespace mount: operation not permitted")).2 (by decide),
   ((postStartIsolatedNetworking_best_effort mountFailsEnv mixedContainer []).2.2
      (.mk "namespace mount: operation not permitted") (by decide)).trans (by decide)⟩

/-! ## `ParseInt` against the decimal numerals -/

/-- One step of the digit loop when `maxVal` fits `uint64`: both range exits are
the test of the new value against `maxVal`. -/
theorem parseUintLoop_step (maxVal : Nat) (hmax : maxVal < 2 ^ 64) (ch : Char)
    (rest : List Char) (n : Nat) (hd : ch.isDigit = true) :
    parseUintLoop maxVal (ch :: rest) n
      = if maxVal < n * 10 + (ch.toNat - 48) then .error true
        else parseUintLoop maxVal rest (n * 10 + (ch.toNat - 48)) := by
  simp only [parseUintLoop, hd, if_true]
  by_cases h1 : (2 ^ 64 - 1) / 10 + 1 ≤ n
  · have h2 : maxVal < n * 10 + (ch.toNat - 48) := by
      norm_num at h1 hmax
      omega
    rw [if_pos h1, if_pos h2]
  · rw [if_neg h1]
    by_cases h2 : maxVal < n * 10 + (ch.toNat - 48)
    · rw [if_pos (Or.inr h2), if_pos h2]
    · have h3 : ¬ (2 ^ 64 ≤ n * 10 + (ch.toNat - 48) ∨ maxVal < n * 10 + (ch.toNat - 48)) := by
        omega
      rw [if_neg h3, if_neg h2]

/-- On a string of digits the loop returns the value when it is at most `maxVal`, and
the range error otherwise. -/
theorem parseUintLoop_digits (maxVal : Nat) (hmax : maxVal < 2 ^ 64) (cs : List Char)
    (hcs : cs.all Char.isDigit = true) :
    ∀ n, n ≤ maxVal → parseUintLoop maxVal cs n
      = if n * 10 ^ cs.length
            + Nat.ofDigits 10 (cs.reverse.map fun ch => ch.toNat - '0'.toNat) ≤ maxVal then
          .ok (n * 10 ^ cs.length
            + Nat.ofDigits 10 (cs.reverse.map fun ch => ch.toNat - '0'.toNat))
        else .error true := by
  induction cs with
  | nil =>
    intro n h
    simp [parseUintLoop, h]
  | cons ch rest ih =>
    intro n _
    simp only [List.all_cons, Bool.and_eq_true] at hcs
    have hval : n * 10 ^ (ch :: rest).length
          + Nat.ofDigits 10 ((ch :: rest).reverse.map fun ch => ch.toNat - '0'.toNat)
        = (n * 10 + (ch.toNat - 48)) * 10 ^ rest.length
          + Nat.ofDigits 10 (rest.reverse.map fun ch => ch.toNat - '0'.toNat) := by
      simp only [List.reverse_cons, List.map_append, List.map_cons, List.map_nil,
        Nat.ofDigits_append, Nat.ofDigits_singleton, List.length_map, List.length_reverse,
        List.length_cons]
      have : ('0'.toNat) = 48 := by decide
      rw [this]
      ring
    rw [parseUintLoop_step maxVal hmax ch rest n hcs.1, hval]
    by_cases h2 : maxVal < n * 10 + (ch.toNat - 48)
    · have hpos : 0 < 10 ^ rest.length := by positivity
      have hle : n * 10 + (ch.toNat - 48) ≤ (n * 10 + (ch.toNat - 48)) * 10 ^ rest.length :=
        Nat.le_mul_of_pos_right _ hpos
      have h3 : ¬ ((n * 10 + (ch.toNat - 48)) * 10 ^ rest.length
          + Nat.ofDigits 10 (rest.reverse.map fun ch => ch.toNat - '0'.toNat) ≤ maxVal) := by
        omega
      rw [if_pos h2, if_neg h3]
    · rw [if_neg h2, ih hcs.2 _ (by omega)]

/-- A string with a byte that is not a digit is never read to the end: the loop
leaves with the syntax error at that byte, or with the range error before it. -/
theorem parseUintLoop_not_digits (maxVal : Nat) (cs : List Char)
    (hcs : ¬ (cs.all Char.isDigit = true)) :
    ∀ n, ∃ b, parseUintLoop maxVal cs n = .error b := by
  induction cs with
  | nil => simp at hcs
  | cons ch rest ih =>
    intro n
    by_cases hd : ch.isDigit = true
    · have hrest : ¬ (rest.all Char.isDigit = true) := by
        intro h
        exact hcs (by simp only [List.all_cons, hd, h, Bool.and_self])
      simp only [parseUintLoop, hd, if_true]
      split
      · exact ⟨true, rfl⟩
      · split
        · exact ⟨true, rfl⟩
        · exact ih hrest _
    · exact ⟨false, by simp only [parseUintLoop, hd, Bool.false_eq_true, if_false]⟩

theorem ParseUint16_digits (cs : List Char) (hne : cs ≠ [])
    (hcs : cs.all Char.isDigit = true) :
    ParseUint cs 16
      = if Nat.ofDigits 10 (cs.reverse.map fun ch => ch.toNat - '0'.toNat) ≤ 65535 then
          .ok (Nat.ofDigits 10 (cs.reverse.map fun ch => ch.toNat - '0'.toNat))
        else .error true := by
  cases cs with
  | nil => exact absurd rfl hne
  | cons ch rest =>
    have h := parseUintLoop_digits (2 ^ 16 - 1) (by norm_num) (ch :: rest) hcs 0 (Nat.zero_le _)
    simp only [Nat.zero_mul, Nat.zero_add] at h
    simp only [ParseUint, h]
    rfl

theorem ParseUint_not_digits (cs : List Char) (bitSize : Nat)
    (hcs : ¬ (cs ≠ [] ∧ cs.all Char.isDigit = true)) :
    ∃ b, ParseUint cs bitSize = .error b := by
  cases cs with
  | nil => exact ⟨false, rfl⟩
  | cons ch rest =>
    have h : ¬ ((ch :: rest).all Char.isDigit = true) := fun h => hcs ⟨by simp, h⟩
    exact parseUintLoop_not_digits _ _ h 0

theorem int16_neg_range (n : Nat) (a b : Except GoError Int) :
    (if 2 ^ (16 - 1) < n then a else b)
      = if -32768 ≤ -(n : Int) ∧ -(n : Int) ≤ 32767 then b else a := by
  by_cases h : 2 ^ (16 - 1) < n
  · have h2 : ¬ (-32768 ≤ -(n : Int) ∧ -(n : Int) ≤ 32767) := by
      norm_num at h; omega
    rw [if_pos h, if_neg h2]
  · have h2 : -32768 ≤ -(n : Int) ∧ -(n : Int) ≤ 32767 := by
      norm_num at h; omega
    rw [if_neg h, if_pos h2]

theorem int16_pos_range (n : Nat) (a b : Except GoError Int) :
    (if 2 ^ (16 - 1) ≤ n then a else b)
      = if -32768 ≤ (n : Int) ∧ (n : Int) ≤ 32767 then b else a := by
  by_cases h : 2 ^ (16 - 1) ≤ n
  · have h2 : ¬ (-32768 ≤ (n : Int) ∧ (n : Int) ≤ 32767) := by
      norm_num at h; omega
    rw [if_pos h, if_neg h2]
  · have h2 : -32768 ≤ (n : Int) ∧ (n : Int) ≤ 32767 := by
      norm_num at h; omega
    rw [if_neg h, if_pos h2]

/-- The range test of `ParseInt` at `bitSize = 16`, on a value that is read or on
the range error of `ParseUint`. -/
theorem intCutoff16 (s : String) (neg : Bool) (un : Nat) :
    intCutoff s 16 neg un
      = if -32768 ≤ (if neg then -(un : Int) else (un : Int))
            ∧ (if neg then -(un : Int) else (un : Int)) ≤ 32767 then
          .ok (if neg then -(un : Int) else (un : Int))
        else .error (.numError "ParseInt" s true) := by
  cases neg with
  | true =>
    simp only [intCutoff, Bool.not_true, Bool.false_and, Bool.true_and, Bool.false_eq_true,
      if_false, if_true, decide_eq_true_eq]
    exact int16_neg_range _ _ _
  | false =>
    simp only [intCutoff, Bool.not_false, Bool.false_and, Bool.true_and, Bool.false_eq_true,
      if_false, decide_eq_true_eq]
    exact int16_pos_range _ _ _

/-- The tail of `ParseInt(s, 10, 16)` after the sign, on a string of digits. -/
theorem ParseInt16_digits (s : String) (neg : Bool) (cs : List Char) (hne : cs ≠ [])
    (hcs : cs.all Char.isDigit = true) :
    (match ParseUint cs 16 with
      | .error false => .error (.numError "ParseInt" s false)
      | .error true => intCutoff s 16 neg (2 ^ 64 - 1)
      | .ok un => intCutoff s 16 neg un : Except GoError Int)
      = if -32768 ≤ (if neg then
              -((Nat.ofDigits 10 (cs.reverse.map fun ch => ch.toNat - '0'.toNat) : Nat) : Int)
            else ((Nat.ofDigits 10 (cs.reverse.map fun ch => ch.toNat - '0'.toNat) : Nat) : Int))
          ∧ (if neg then
              -((Nat.ofDigits 10 (cs.reverse.map fun ch => ch.toNat - '0'.toNat) : Nat) : Int)
            else ((Nat.ofDigits 10 (cs.reverse.map fun ch => ch.toNat - '0'.toNat) : Nat) : Int))
              ≤ 32767 then
          .ok (if neg then
              -((Nat.ofDigits 10 (cs.reverse.map fun ch => ch.toNat - '0'.toNat) : Nat) : Int)
            else ((Nat.ofDigits 10 (cs.reverse.map fun ch => ch.toNat - '0'.toNat) : Nat) : Int))
        else .error (.numError "ParseInt" s true) := by
  rw [ParseUint16_digits cs hne hcs]
  generalize Nat.ofDigits 10 (cs.reverse.map fun ch => ch.toNat - '0'.toNat) = un
  by_cases h : un ≤ 65535
  · rw [if_pos h]
    exact intCutoff16 s neg un
  · rw [if_neg h]
    have hbad : ¬ (-32768 ≤ (if neg then -(un : Int) else (un : Int))
        ∧ (if neg then -(un : Int) else (un : Int)) ≤ 32767) := by
      cases neg <;> simp only [Bool.false_eq_true, if_false, if_true] <;> omega
    rw [if_neg hbad]
    show intCutoff s 16 neg (2 ^ 64 - 1) = _
    rw [intCutoff16]
    have hbad2 : ¬ (-32768 ≤ (if neg then -((2 ^ 64 - 1 : Nat) : Int) else ((2 ^ 64 - 1 : Nat) : Int))
        ∧ (if neg then -((2 ^ 64 - 1 : Nat) : Int) else ((2 ^ 64 - 1 : Nat) : Int)) ≤ 32767) := by
      cases neg <;> simp only [Bool.false_eq_true, if_false, if_true] <;> norm_num
    rw [if_neg hbad2]

/-- The tail of `ParseInt(s, 10, 16)` after the sign, on a string that is empty or
has a byte that is not a digit: an error, of the syntax or of the range. -/
theorem ParseInt16_not_digits (s : String) (neg : Bool) (cs : List Char)
    (hcs : ¬ (cs ≠ [] ∧ cs.all Char.isDigit = true)) :
    ∃ b, (match ParseUint cs 16 with
      | .error false => .error (.numError "ParseInt" s false)
      | .error true => intCutoff s 16 neg (2 ^ 64 - 1)
      | .ok un => intCutoff s 16 neg un : Except GoError Int)
      = .error (.numError "ParseInt" s b) := by
  obtain ⟨b, hb⟩ := ParseUint_not_digits cs 16 hcs
  rw [hb]
  cases b with
  | false => exact ⟨false, rfl⟩
  | true =>
    refine ⟨true, ?_⟩
    show intCutoff s 16 neg (2 ^ 64 - 1) = _
    rw [intCutoff16]
    have hbad2 : ¬ (-32768 ≤ (if neg then -((2 ^ 64 - 1 : Nat) : Int) else ((2 ^ 64 - 1 : Nat) : Int))
        ∧ (if neg then -((2 ^ 64 - 1 : Nat) : Int) else ((2 ^ 64 - 1 : Nat) : Int)) ≤ 32767) := by
      cases neg <;> simp only [Bool.false_eq_true, if_false, if_true] <;> norm_num
    rw [if_neg hbad2]

/-- Go `ParseInt(s, 10, 16)` on a decimal numeral: the value when it is in the
`int16` range, the range error otherwise. -/
theorem ParseInt16_numeral (s : String) (v : Int) (hv : decimalValue s = some v) :
    ParseInt s 16
      = if -32768 ≤ v ∧ v ≤ 32767 then .ok v else .error (.numError "ParseInt" s true) := by
  unfold decimalValue at hv
  unfold ParseInt
  cases hs : s.data with
  | nil => simp [hs] at hv
  | cons ch rest =>
    rw [hs] at hv
    simp only [List.head?_cons, Option.some.injEq, List.tail_cons] at hv
    simp only []
    by_cases hm : ch = '-'
    · subst hm
      simp only [or_true, true_or, if_true, decide_True] at hv ⊢
      by_cases hb : rest ≠ [] ∧ rest.all Char.isDigit = true
      · rw [if_pos hb] at hv
        rw [← Option.some.inj hv]
        exact ParseInt16_digits s true rest hb.1 hb.2
      · rw [if_neg hb] at hv
        exact absurd hv (by simp)
    · by_cases hp : ch = '+'
      · subst hp
        simp only [true_or, or_true, if_true, hm, decide_False] at hv ⊢
        by_cases hb : rest ≠ [] ∧ rest.all Char.isDigit = true
        · rw [if_pos hb] at hv
          rw [← Option.some.inj hv]
          exact ParseInt16_digits s false rest hb.1 hb.2
        · rw [if_neg hb] at hv
          exact absurd hv (by simp)
      · simp only [hp, hm, or_self, if_false, decide_False] at hv ⊢
        by_cases hb : (ch :: rest) ≠ [] ∧ (ch :: rest).all Char.isDigit = true
        · rw [if_pos hb] at hv
          rw [← Option.some.inj hv]
          exact ParseInt16_digits s false (ch :: rest) hb.1 hb.2
        · rw [if_neg hb] at hv
          exact absurd hv (by simp)

/-- Go `ParseInt(s, 10, 16)` on a string that is not a decimal numeral: an error
that names `ParseInt` and the string.  It is the syntax error unless the digits
before the first other byte already leave the 16 bits, when it is the range
error. -/
theorem ParseInt16_not_numeral (s : String) (hv : decimalValue s = none) :
    ∃ b, ParseInt s 16 = .error (.numError "ParseInt" s b) := by
  unfold decimalValue at hv
  unfold ParseInt
  cases hs : s.data with
  | nil => exact ⟨false, rfl⟩
  | cons ch rest =>
    rw [hs] at hv
    simp only [List.head?_cons, Option.some.injEq, List.tail_cons] at hv
    simp only []
    by_cases hm : ch = '-'
    · subst hm
      simp only [or_true, true_or, if_true, decide_True] at hv ⊢
      by_cases hb : rest ≠ [] ∧ rest.all Char.isDigit = true
      · rw [if_pos hb] at hv
        exact absurd hv (by simp)
      · exact ParseInt16_not_digits s true rest hb
    · by_cases hp : ch = '+'
      · subst hp
        simp only [true_or, or_true, if_true, hm, decide_False] at hv ⊢
        by_cases hb : rest ≠ [] ∧ rest.all Char.isDigit = true
        · rw [if_pos hb] at hv
          exact absurd hv (by simp)
        · exact ParseInt16_not_digits s false rest hb
      · simp only [hp, hm, or_self, if_false, decide_False] at hv ⊢
        by_cases hb : (ch :: rest) ≠ [] ∧ (ch :: rest).all Char.isDigit = true
        · rw [if_pos hb] at hv
          exact absurd hv (by simp)
        · exact ParseInt16_not_digits s false (ch :: rest) hb

/-! ## VLAN pre-start -/

theorem setMaster_extends (env : Env) (name bridge linkType : String) (ovs : Option Nat)
    (t : Trace) : ∃ rest, (setMaster env name bridge linkType ovs t).2 = t ++ rest := by
  unfold setMaster
  simp only [call]
  repeat' split
  all_goals first
    | exact ⟨[], (List.append_nil _).symm⟩
    | exact ⟨_, rfl⟩

theorem setupPeer_extends (env : Env) (peerName : String) (n : Nic) (t : Trace) :
    ∃ rest, (setupPeer env peerName n t).2 = t ++ rest := by
  unfold setupPeer
  simp only [call]
  repeat' split
  all_goals first
    | exact ⟨_, rfl⟩
    | exact ⟨_, List.append_assoc _ _ _⟩

theorem preBridge_extends (env : Env) (c : container) (index : Nat) (bridge : String) (n : Nic)
    (ovs : Option Nat) (t : Trace) :
    ∃ rest, (preBridge env c index bridge n ovs t).2 = t ++ rest := by
  unfold preBridge
  simp only [call]
  split
  · exact ⟨_, rfl⟩
  · split
    · exact ⟨_, List.append_assoc _ _ _⟩
    · split
      · rename_i e t3 h
        obtain ⟨r, hr⟩ := setMaster_extends env (containerLinkNameFmt c.id index) bridge
          (env.reply t (.LinkByName bridge)).data ovs
          (t ++ [.LinkByName bridge] ++ [.LinkAdd
            { Name := containerLinkNameFmt c.id index, FlagUp := true, MTU := 1500, TxQLen := 1000,
              PeerName := containerPeerNameFmt (containerLinkNameFmt c.id index) }])
        rw [h] at hr
        simp only at hr
        exact ⟨_, by rw [hr, List.append_assoc, List.append_assoc]⟩
      · rename_i t3 h
        obtain ⟨r, hr⟩ := setMaster_extends env (containerLinkNameFmt c.id index) bridge
          (env.reply t (.LinkByName bridge)).data ovs
          (t ++ [.LinkByName bridge] ++ [.LinkAdd
            { Name := containerLinkNameFmt c.id index, FlagUp := true, MTU := 1500, TxQLen := 1000,
              PeerName := containerPeerNameFmt (containerLinkNameFmt c.id index) }])
        rw [h] at hr
        simp only at hr
        obtain ⟨r2, hr2⟩ := setupPeer_extends env
          (containerPeerNameFmt (containerLinkNameFmt c.id index)) n t3
        exact ⟨_, by rw [hr2, hr, List.append_assoc, List.append_assoc, List.append_assoc]⟩

/-- What `preVlanNetwork` does once the id is validated as `vlanID`. -/
theorem preVlanNetwork_valid (nic : Nic)
    (v : Int) (hv : decimalValue nic.ID = some v) (h0 : 0 ≤ v) (h1 : v ≤ 4094) :
    ParseInt nic.ID 16 = .ok v ∧ ¬ (v < 0 ∨ v ≥ 4095) := by
  refine ⟨?_, by omega⟩
  rw [ParseInt16_numeral nic.ID v hv]
  have : -32768 ≤ v ∧ v ≤ 32767 := by omega
  simp only [this, and_self, if_true]

/-- The error of `ParseInt` on an id that is not a numeral depends on where the
first byte that is not a digit stands: at `v100` the loop meets it at once and the
error is of the syntax; at `99999x` the fifth digit leaves the 16 bits before the
`x` is read and the error is of the range. -/
theorem preVlanNetwork_not_numeral_errors :
    preVlanNetwork okEnv (freshContainer []) 0 (nicOf "vlan" "v100") []
        = (some (.numError "ParseInt" "v100" false), []) ∧
    preVlanNetwork okEnv (freshContainer []) 0 (nicOf "vlan" "100v") []
        = (some (.numError "ParseInt" "100v" false), []) ∧
    preVlanNetwork okEnv (freshContainer []) 0 (nicOf "vlan" "") []
        = (some (.numError "ParseInt" "" false), []) ∧
    preVlanNetwork okEnv (freshContainer []) 0 (nicOf "vlan" "99999x") []
        = (some (.numError "ParseInt" "99999x" true), []) ∧
    preVlanNetwork okEnv (freshContainer []) 0 (nicOf "vlan" "-99999x") []
        = (some (.numError "ParseInt" "-99999x" true), []) ∧
    preVlanNetwork okEnv (freshContainer []) 0 (nicOf "vlan" "40000") []
        = (some (.numError "ParseInt" "40000" true), []) ∧
    preVlanNetwork okEnv (freshContainer []) 0 (nicOf "vlan" "4095") []
        = (some (.mk "invalid vlan id (0-4094)"), []) ∧
    preVlanNetwork okEnv (freshContainer []) 0 (nicOf "vlan" "-1") []
        = (some (.mk "invalid vlan id (0-4094)"), []) := by
  decide

/-- C6: `preVlanNetwork` validates the id first.  An id that is not a decimal
numeral gives the error of `ParseInt` on that id (of the syntax, or of the range
when the digits before the first other byte already leave the 16 bits), and a
numeral with a value outside `[0, 4094]` gives an error; in both cases the trace is
unchanged: no OVS lookup, no dispatch, no veth.  A numeral with a value in
`[0, 4094]` passes, and the next call made is the lookup of the `ovs` container. -/
theorem preVlanNetwork_validation (env : Env) (c : container) (idx : Nat) (nic : Nic)
    (t : Trace) :
    (decimalValue nic.ID = none →
        ∃ b, preVlanNetwork env c idx nic t = (some (.numError "ParseInt" nic.ID b), t)) ∧
    (∀ v, decimalValue nic.ID = some v → (v < 0 ∨ 4094 < v) →
        ∃ e, preVlanNetwork env c idx nic t = (some e, t)) ∧
    (∀ v, decimalValue nic.ID = some v → 0 ≤ v → v ≤ 4094 →
        ∃ rest, (preVlanNetwork env c idx nic t).2 = t ++ [.getOneWithTags "ovs"] ++ rest) := by
  refine ⟨?_, ?_, ?_⟩
  · intro h
    obtain ⟨b, hb⟩ := ParseInt16_not_numeral nic.ID h
    exact ⟨b, by simp only [preVlanNetwork, hb]⟩
  · intro v hv hout
    by_cases hr : -32768 ≤ v ∧ v ≤ 32767
    · refine ⟨.mk "invalid vlan id (0-4094)", ?_⟩
      have hbad : v < 0 ∨ v ≥ 4095 := by omega
      simp only [preVlanNetwork, ParseInt16_numeral nic.ID v hv, hr, and_self, if_true, hbad]
    · refine ⟨.numError "ParseInt" nic.ID true, ?_⟩
      simp only [preVlanNetwork, ParseInt16_numeral nic.ID v hv, hr, if_false]
  · intro v hv h0 h1
    obtain ⟨hp, hin⟩ := preVlanNetwork_valid nic v hv h0 h1
    simp only [preVlanNetwork, hp, hin, if_false, call, OVSTag]
    split
    · exact ⟨[], (List.append_nil _).symm⟩
    · split
      · exact ⟨_, rfl⟩
      · split
        · exact ⟨_, rfl⟩
        · split
          · exact ⟨_, rfl⟩
          · rename_i _ ovsId _ _ _ _ _ bridge _
            obtain ⟨r, hr⟩ := preBridge_extends env c idx bridge nic (some ovsId)
              (t ++ [.getOneWithTags "ovs"] ++ [.dispatchSync ovsId
                { ID := "", Command := "ovs.vlan-ensure", Route := "",
                  Arguments := .map [("master", .str OVSBackPlane), ("vlan", .int v)] }])
            exact ⟨_, by rw [hr, List.append_assoc (t ++ [Call.getOneWithTags "ovs"])]⟩

theorem preVlanNetwork_validation_witness :
    (∃ b, preVlanNetwork okEnv (freshContainer []) 0 (nicOf "vlan" "v100") []
        = (some (.numError "ParseInt" "v100" b), [])) ∧
    (∃ b, preVlanNetwork okEnv (freshContainer []) 0 (nicOf "vlan" "99999x") []
        = (some (.numError "ParseInt" "99999x" b), [])) ∧
    (∃ e, preVlanNetwork okEnv (freshContainer []) 0 (nicOf "vlan" "4095") [] = (some e, [])) ∧
    (∃ e, preVlanNetwork okEnv (freshContainer []) 0 (nicOf "vlan" "-1") [] = (some e, [])) ∧
    (∃ rest, (preVlanNetwork okEnv (freshContainer []) 0 (nicOf "vlan" "0") []).2
        = [] ++ [.getOneWithTags "ovs"] ++ rest) :=
  ⟨(preVlanNetwork_validation okEnv (freshContainer []) 0 (nicOf "vlan" "v100") []).1
      (by decide),
   (preVlanNetwork_validation okEnv (freshContainer []) 0 (nicOf "vlan" "99999x") []).1
      (by decide),
   (preVlanNetwork_validation okEnv (freshContainer []) 0 (nicOf "vlan" "4095") []).2.1 4095
      (by decide) (by decide),
   (preVlanNetwork_validation okEnv (freshContainer []) 0 (nicOf "vlan" "-1") []).2.1 (-1)
      (by decide) (by decide),
   (preVlanNetwork_validation okEnv (freshContainer []) 0 (nicOf "vlan" "0") []).2.2 0
      (by decide) (by decide) (by decide)⟩

/-- C7: for a vlan NIC with a valid id, when the lookup of the `ovs` container
returns nothing, `preVlanNetwork` returns the error with the text
`ovs is needed for VLAN network type`; the lookup is the only call made, so no
OVS command is dispatched and no veth is created.  The pre-start step of a NIC
of type `vlan` is that call. -/
theorem preVlanNetwork_without_ovs (env : Env) (c : container) (idx : Nat) (nic : Nic)
    (t : Trace) (v : Int) (hv : decimalValue nic.ID = some v) (h0 : 0 ≤ v) (h1 : v ≤ 4094)
    (hovs : (env.reply t (.getOneWithTags OVSTag)).ref = none) :
    preVlanNetwork env c idx nic t
        = (some (.mk "ovs is needed for VLAN network type"), t ++ [.getOneWithTags "ovs"]) ∧
    (nic.NicType = "vlan" →
      preStartNic env c idx nic t
        = (some (.mk "ovs is needed for VLAN network type"), t ++ [.getOneWithTags "ovs"])) := by
  obtain ⟨hp, hin⟩ := preVlanNetwork_valid nic v hv h0 h1
  have h : preVlanNetwork env c idx nic t
      = (some (.mk "ovs is needed for VLAN network type"), t ++ [.getOneWithTags "ovs"]) := by
    simp only [preVlanNetwork, hp, hin, if_false, call, hovs]
    rfl
  refine ⟨h, ?_⟩
  intro hty
  have hne : ¬ ("vlan" = "vxlan") := by decide
  simp only [preStartNic, hty, hne, if_false, if_true, h]

theorem preVlanNetwork_without_ovs_witness :
    preVlanNetwork okEnv (freshContainer [nicOf "vlan" "100"]) 0 (nicOf "vlan" "100") []
        = (some (.mk "ovs is needed for VLAN network type"), [.getOneWithTags "ovs"]) ∧
    preStartNic okEnv (freshContainer [nicOf "vlan" "100"]) 0 (nicOf "vlan" "100") []
        = (some (.mk "ovs is needed for VLAN network type"), [.getOneWithTags "ovs"]) :=
  ⟨(preVlanNetwork_without_ovs okEnv (freshContainer [nicOf "vlan" "100"]) 0
      (nicOf "vlan" "100") [] 100 (by decide) (by decide) (by decide) (by decide)).1,
   (preVlanNetwork_without_ovs okEnv (freshContainer [nicOf "vlan" "100"]) 0
      (nicOf "vlan" "100") [] 100 (by decide) (by decide) (by decide) (by decide)).2
      (by decide)⟩

/-! ## NICs of type `bridge` and `default` -/

theorem runAndWait_ok (env : Env) (cmd : Command) (failure : String) (t : Trace)
    (hok : ∀ t1 k, (env.reply t1 k).err = none ∧ (env.reply t1 k).state = StateSuccess) :
    runAndWait env cmd failure t = (none, t ++ [.RunCmd cmd, .Wait cmd.ID]) := by
  simp [runAndWait, call, (hok _ _).1, (hok _ _).2]

theorem bridge_nic_rejected (env : Env) (c : container) (idx : Nat) (nic : Nic) (t : Trace)
    (hty : nic.NicType = "bridge") :
    preStartNic env c idx nic t = (some (.mk "unkown network type 'bridge'"), t) ∧
    postStartNic env c idx nic t = (none, t) ∧
    destroyNic env c idx nic t = t := by
  refine ⟨?_, ?_, ?_⟩
  · rw [preStartNic_unknown env c idx nic t (by rw [hty]; decide) (by rw [hty]; decide)
      (by rw [hty]; decide) (by rw [hty]; decide), hty]
    rfl
  · simp [postStartNic, hty]
  · simp [destroyNic, hty]

theorem preDefault_ok (env : Env) (c : container) (idx : Nat) (nic : Nic) (t : Trace)
    (hok : ∀ t1 k, (env.reply t1 k).err = none ∧ (env.reply t1 k).state = StateSuccess)
    (hbr : (env.reply t (.LinkByName env.cfg.DefaultBridgeName)).data = "bridge")
    (hty : nic.NicType = "default") :
    preStartNic env c idx nic t
      = (none, t ++ [.LinkByName env.cfg.DefaultBridgeName,
          .LinkAdd { Name := containerLinkNameFmt c.id idx, FlagUp := true, MTU := 1500, TxQLen := 1000,
                     PeerName := containerLinkNameFmt c.id idx ++ "p" },
          .LinkSetMaster (containerLinkNameFmt c.id idx) env.cfg.DefaultBridgeName,
          .LinkByName (containerLinkNameFmt c.id idx ++ "p")]) := by
  simp [preStartNic, hty, preDefaultNetwork, preBridge, setMaster, setupPeer, defnet, call,
    (hok _ _).1, hbr, containerPeerNameFmt]

theorem postDefault_ok (env : Env) (c : container) (idx : Nat) (nic : Nic) (t : Trace)
    (hok : ∀ t1 k, (env.reply t1 k).err = none ∧ (env.reply t1 k).state = StateSuccess)
    (hcidr : env.ParseCIDR (ipString (getDefaultIP env.cfg c) ++ "/16") = none)
    (hgw : env.cfg.DefaultBridgeIP ≠ "")
    (hty : nic.NicType = "default") :
    postStartNic env c idx nic t
      = (none,
          let peer := containerLinkNameFmt c.id idx ++ "p"
          let dev := "eth" ++ toString idx
          let ns := toString c.id
          let t3 := t ++ [.LinkByName peer, .LinkSetUp peer, .LinkSetNsPid peer c.PID]
          let rename := systemCommand env t3 "ip"
            ["netns", "exec", ns, "ip", "link", "set", peer, "name", dev]
          let t5 := t3 ++ [.RunCmd rename, .Wait rename.ID]
          let up := systemCommand env t5 "ip"
            ["netns", "exec", ns, "ip", "link", "set", "dev", dev, "up"]
          let t7 := t5 ++ [.RunCmd up, .Wait up.ID]
          let addr := systemCommand env t7 "ip"
            ["netns", "exec", ns, "ip", "address", "add",
             ipString (getDefaultIP env.cfg c) ++ "/16", "dev", dev]
          let t9 := t7 ++ [.RunCmd addr, .Wait addr.ID]
          let route := systemCommand env t9 "ip"
            ["netns", "exec", ns, "ip", "route", "add", "metric", "1000", "default", "via",
             env.cfg.DefaultBridgeIP, "dev", dev]
          let t11 := t9 ++ [.RunCmd route, .Wait route.ID]
          t11 ++ [.appendFile (pathJoin [root env.cfg c, "etc", "resolv.conf"])
            ("\nnameserver " ++ env.cfg.DefaultBridgeIP ++ "\n")]) := by
  have hne1 : ¬ ("default" = "vxlan") := by decide
  have hne2 : ¬ ("default" = "vlan") := by decide
  have hne3 : ¬ ("default" = "zerotier") := by decide
  have hc : ipString (getDefaultIP env.cfg c) ++ "/16" ≠ "" := by
    intro h
    have hlen := congrArg String.length h
    have h16 : "/16".length = 3 := by decide
    have h0 : "".length = 0 := by decide
    rw [String.length_append, h16, h0] at hlen
    omega
  simp only [postStartNic, hty, hne1, hne2, hne3, if_false, if_true, postDefaultNetwork,
    postBridge, call, (hok _ _).1, runAndWait_ok env _ _ _ hok, defnet, containerPeerNameFmt, hcidr,
    postBridgeTail, setGateway, setDNSLoop, setDNS, hgw, hc, ne_eq, not_false_eq_true,
    Bool.false_eq_true, Option.map_none', List.append_assoc, List.cons_append, List.nil_append]

theorem destroyDefault_ok (env : Env) (c : container) (idx : Nat) (nic : Nic) (t : Trace)
    (hlink : (env.reply t (.LinkByName (containerLinkNameFmt c.id idx))).err = none)
    (hty : nic.NicType = "default") :
    destroyNic env c idx nic t
      = unPortForward env c
          (t ++ [.LinkByName (containerLinkNameFmt c.id idx),
                 .LinkDel (containerLinkNameFmt c.id idx)]) := by
  have hne1 : ¬ ("default" = "vxlan") := by decide
  have hne2 : ¬ ("default" = "vlan") := by decide
  have hne3 : ¬ ("default" = "zerotier") := by decide
  simp only [destroyNic, hty, hne1, hne2, hne3, or_self, if_false, if_true, unBridge, call,
    hlink, List.append_assoc, List.cons_append, List.nil_append]

theorem stepsTraceFrom_take_succ (step : Nat → Nic → Trace → Option GoError × Trace) :
    ∀ (nics : List Nic) (s k : Nat) (t : Trace) (n : Nic), nics[k]? = some n →
      stepsTraceFrom step s (nics.take (k + 1)) t
        = (step (s + k) n (stepsTraceFrom step s (nics.take k) t)).2 := by
  intro nics
  induction nics with
  | nil => intro s k t n hk; simp at hk
  | cons a rest ih =>
    intro s k t n hk
    cases k with
    | zero =>
      simp only [List.getElem?_cons_zero, Option.some.injEq] at hk
      subst hk
      rfl
    | succ k =>
      simp only [List.getElem?_cons_succ] at hk
      simp only [List.take_succ_cons, stepsTraceFrom_cons]
      rw [ih (s + 1) k _ n hk, show s + 1 + k = s + (k + 1) by omega]

/-- C5 (amended): a NIC of type `bridge` is not accepted.  Its pre-start step
returns the error `unkown network type 'bridge'` and performs nothing, so
`preStartIsolatedNetworking` fails at that NIC with only the steps of the earlier
NICs performed; its post-start and destroy steps do nothing.  The plumbing is done
for a NIC of type `default` on the bridge `DefaultBridgeName`: when that link is of
type `bridge` and every call succeeds, pre-start creates the veth pair
`cont<id>-<idx>` / `cont<id>-<idx>p` and sets the bridge as master of the host
side; post-start moves the peer into the namespace of the container, renames it
to `eth<idx>` and applies the default configuration (address `<defaultIP>/16`,
gateway and name server `DefaultBridgeIP`); destroy deletes the link
`cont<id>-<idx>` when it is found, then stops the port forwarders. -/
theorem bridge_type_rejected_default_type_bridged (env : Env) (c : container) (idx : Nat)
    (nic : Nic) (t : Trace) :
    (nic.NicType = "bridge" →
        preStartNic env c idx nic t = (some (.mk "unkown network type 'bridge'"), t) ∧
        postStartNic env c idx nic t = (none, t) ∧
        destroyNic env c idx nic t = t ∧
        (c.Args.Nics[idx]? = some nic →
          (∀ i, i < idx → ∀ ni, c.Args.Nics[i]? = some ni →
            (preStartNic env c i ni
              (stepsTrace (preStartNic env c) (c.Args.Nics.take i) t)).1 = none) →
          preStartIsolatedNetworking env c t
            = (some (.mk "unkown network type 'bridge'"),
               stepsTrace (preStartNic env c) (c.Args.Nics.take idx) t))) ∧
    (nic.NicType = "default" →
        (∀ t1 k, (env.reply t1 k).err = none ∧ (env.reply t1 k).state = StateSuccess) →
        (env.reply t (.LinkByName env.cfg.DefaultBridgeName)).data = "bridge" →
        env.ParseCIDR (ipString (getDefaultIP env.cfg c) ++ "/16") = none →
        env.cfg.DefaultBridgeIP ≠ "" →
        preStartNic env c idx nic t
          = (none, t ++ [.LinkByName env.cfg.DefaultBridgeName,
              .LinkAdd { Name := containerLinkNameFmt c.id idx, FlagUp := true, MTU := 1500,
                         TxQLen := 1000, PeerName := containerLinkNameFmt c.id idx ++ "p" },
              .LinkSetMaster (containerLinkNameFmt c.id idx) env.cfg.DefaultBridgeName,
              .LinkByName (containerLinkNameFmt c.id idx ++ "p")]) ∧
        postStartNic env c idx nic t
          = (none,
              let peer := containerLinkNameFmt c.id idx ++ "p"
              let dev := "eth" ++ toString idx
              let ns := toString c.id
              let t3 := t ++ [.LinkByName peer, .LinkSetUp peer, .LinkSetNsPid peer c.PID]
              let rename := systemCommand env t3 "ip"
                ["netns", "exec", ns, "ip", "link", "set", peer, "name", dev]
              let t5 := t3 ++ [.RunCmd rename, .Wait rename.ID]
              let up := systemCommand env t5 "ip"
                ["netns", "exec", ns, "ip", "link", "set", "dev", dev, "up"]
              let t7 := t5 ++ [.RunCmd up, .Wait up.ID]
              let addr := systemCommand env t7 "ip"
                ["netns", "exec", ns, "ip", "address", "add",
                 ipString (getDefaultIP env.cfg c) ++ "/16", "dev", dev]
              let t9 := t7 ++ [.RunCmd addr, .Wait addr.ID]
              let route := systemCommand env t9 "ip"
                ["netns", "exec", ns, "ip", "route", "add", "metric", "1000", "default", "via",
                 env.cfg.DefaultBridgeIP, "dev", dev]
              let t11 := t9 ++ [.RunCmd route, .Wait route.ID]
              t11 ++ [.appendFile (pathJoin [root env.cfg c, "etc", "resolv.conf"])
                ("\nnameserver " ++ env.cfg.DefaultBridgeIP ++ "\n")]) ∧
        destroyNic env c idx nic t
          = unPortForward env c
              (t ++ [.LinkByName (containerLinkNameFmt c.id idx),
                     .LinkDel (containerLinkNameFmt c.id idx)])) := by
  refine ⟨?_, ?_⟩
  · intro hty
    obtain ⟨hpre, hpost, hdel⟩ := bridge_nic_rejected env c idx nic t hty
    refine ⟨hpre, hpost, hdel, ?_⟩
    intro hk hmin
    have hstep := (bridge_nic_rejected env c idx nic
      (stepsTrace (preStartNic env c) (c.Args.Nics.take idx) t) hty).1
    have h := preStartLoop_abort env c c.Args.Nics 0 idx t nic
      (.mk "unkown network type 'bridge'") hk
      (by simp only [Nat.zero_add]; rw [← stepsTrace, hstep])
      (by intro i hi ni hni; simpa [stepsTrace] using hmin i hi ni hni)
    rw [stepsTraceFrom_take_succ (preStartNic env c) c.Args.Nics 0 idx t nic hk] at h
    simp only [Nat.zero_add] at h
    rw [← stepsTrace, hstep] at h
    exact h
  · intro hty hok hbr hcidr hgw
    exact ⟨preDefault_ok env c idx nic t hok hbr hty,
      postDefault_ok env c idx nic t hok hcidr hgw hty,
      destroyDefault_ok env c idx nic t (hok _ _).1 hty⟩

/-- C5 as stated fails: in a world where `br0` is an existing Linux bridge and
every call succeeds, pre-start of a container whose only NIC has type `bridge`
returns the unknown-type error and creates no veth. -/
theorem bridge_nic_not_accepted :
    (okEnv.reply [] (.LinkByName "br0")).err = none ∧
    (okEnv.reply [] (.LinkByName "br0")).data = "bridge" ∧
    preStartIsolatedNetworking okEnv (freshContainer [nicOf "bridge" "br0"]) []
      = (some (.mk "unkown network type 'bridge'"), []) := by
  decide

theorem bridge_type_rejected_default_type_bridged_witness :
    preStartIsolatedNetworking okEnv mixedContainer []
        = (some (.mk "unkown network type 'bridge'"),
           [.LinkByName "core0",
            .LinkAdd { Name := "cont1-0", FlagUp := true, MTU := 1500, TxQLen := 1000,
                       PeerName := "cont1-0p" },
            .LinkSetMaster "cont1-0" "core0",
            .LinkByName "cont1-0p"]) ∧
    preStartNic okEnv mixedContainer 2 (nicOf "default" "") []
        = (none,
           [.LinkByName "core0",
            .LinkAdd { Name := "cont1-2", FlagUp := true, MTU := 1500, TxQLen := 1000,
                       PeerName := "cont1-2p" },
            .LinkSetMaster "cont1-2" "core0",
            .LinkByName "cont1-2p"]) ∧
    destroyNic okEnv mixedContainer 2 (nicOf "default" "") []
        = [.LinkByName "cont1-2", .LinkDel "cont1-2", .Kill "socat-1-8080-80"] :=
  ⟨(((bridge_type_rejected_default_type_bridged okEnv mixedContainer 1 (nicOf "bridge" "br0")
        []).1 (by decide)).2.2.2 (by decide)
        (by
          intro i hi ni hni
          obtain rfl : i = 0 := by omega
          obtain rfl : nicOf "default" "" = ni := by simpa [mixedContainer, freshContainer,
            newContainer, demoArgs] using hni
          decide)).trans (by decide),
   (((bridge_type_rejected_default_type_bridged okEnv mixedContainer 2 (nicOf "default" "")
        []).2 (by decide) (by intro t1 k; exact ⟨rfl, rfl⟩) (by decide) (by decide)
        (by decide)).1).trans (by decide),
   (((bridge_type_rejected_default_type_bridged okEnv mixedContainer 2 (nicOf "default" "")
        []).2 (by decide) (by intro t1 k; exact ⟨rfl, rfl⟩) (by decide) (by decide)
        (by decide)).2.2).trans (by decide)⟩

/-! ## Tear-down traces -/

theorem unPortForwardLoop_extends (env : Env) (c : container) :
    ∀ (ports : List (Int × Int)) (t : Trace),
      ∃ rest, unPortForwardLoop env c ports t = t ++ rest := by
  intro ports
  induction ports with
  | nil => intro t; exact ⟨[], (List.append_nil _).symm⟩
  | cons p rest ih =>
    intro t
    obtain ⟨host, cont⟩ := p
    obtain ⟨r, hr⟩ := ih (t ++ [.Kill (forwardId c host cont)])
    refine ⟨[.Kill (forwardId c host cont)] ++ r, ?_⟩
    simp only [unPortForwardLoop, call, hr, List.append_assoc]

theorem unBridge_extends (env : Env) (c : container) (idx : Nat) (n : Nic) (ovs : Option Nat)
    (t : Trace) : ∃ rest, unBridge env c idx n ovs t = t ++ rest := by
  unfold unBridge
  simp only [call]
  repeat' split
  all_goals first
    | exact ⟨_, rfl⟩
    | exact ⟨_, List.append_assoc _ _ _⟩

theorem destroyNic_extends (env : Env) (c : container) (idx : Nat) (n : Nic) (t : Trace) :
    ∃ rest, destroyNic env c idx n t = t ++ rest := by
  unfold destroyNic
  simp only [call]
  split
  · obtain ⟨r, hr⟩ := unBridge_extends env c idx n (env.reply t (.getOneWithTags OVSTag)).ref
      (t ++ [.getOneWithTags OVSTag])
    exact ⟨_, by rw [hr, List.append_assoc]⟩
  · split
    · exact ⟨_, rfl⟩
    · split
      · obtain ⟨r, hr⟩ := unBridge_extends env c idx n none t
        obtain ⟨r2, hr2⟩ := unPortForwardLoop_extends env c c.Args.Port
          (unBridge env c idx n none t)
        exact ⟨_, by rw [unPortForward, hr2, hr, List.append_assoc]⟩
      · exact ⟨[], (List.append_nil _).symm⟩

theorem destroyLoop_extends (env : Env) (c : container) :
    ∀ (nics : List Nic) (idx : Nat) (t : Trace),
      ∃ rest, destroyLoop env c idx nics t = t ++ rest := by
  intro nics
  induction nics with
  | nil => intro idx t; exact ⟨[], (List.append_nil _).symm⟩
  | cons n rest ih =>
    intro idx t
    obtain ⟨r, hr⟩ := destroyNic_extends env c idx n t
    obtain ⟨r2, hr2⟩ := ih (idx + 1) (destroyNic env c idx n t)
    exact ⟨_, by rw [destroyLoop, hr2, hr, List.append_assoc]⟩

theorem destroyNetwork_extends (env : Env) (c : container) (t : Trace) :
    ∃ rest, destroyNetwork env c t = t ++ rest := by
  unfold destroyNetwork
  obtain ⟨r, hr⟩ := destroyLoop_extends env c c.Args.Nics 0 t
  simp only [call]
  split
  · exact ⟨[], (List.append_nil _).symm⟩
  · split
    · exact ⟨_, by rw [hr, List.append_assoc, List.append_assoc]⟩
    · exact ⟨_, hr⟩

/-! ## Host networking -/

/-- C12 (amended): with `HostNetwork` set the NIC list is ignored.  `preStart` is
`preStartHostNetworking`: it prepares `<root>/etc/resolv.conf` and bind-mounts the
`/etc/resolv.conf` of the host onto it with the flag `MS_BIND` alone, and returns
the result of that mount; no NIC step runs.  `postStart` returns `nil` without a
call and `destroyNetwork` makes no call. -/
theorem hostNetwork_ignores_nics (env : Env) (c : container) (t : Trace)
    (h : c.Args.HostNetwork = true) :
    preStart env c t
      = ((env.reply
            (t ++ [.MkdirAll (pathJoin [root env.cfg c, "etc"]),
                   .Remove (pathJoin [root env.cfg c, "etc", "resolv.conf"]),
                   .WriteFile (pathJoin [root env.cfg c, "etc", "resolv.conf"])])
            (.Mount "/etc/resolv.conf" (pathJoin [root env.cfg c, "etc", "resolv.conf"])
              MS_BIND)).err.map GoError.mk,
         t ++ [.MkdirAll (pathJoin [root env.cfg c, "etc"]),
               .Remove (pathJoin [root env.cfg c, "etc", "resolv.conf"]),
               .WriteFile (pathJoin [root env.cfg c, "etc", "resolv.conf"]),
               .Mount "/etc/resolv.conf" (pathJoin [root env.cfg c, "etc", "resolv.conf"])
                 MS_BIND]) ∧
    postStart env c t = (none, t) ∧
    destroyNetwork env c t = t := by
  refine ⟨?_, ?_, ?_⟩
  · simp only [preStart, h, if_true, preStartHostNetworking, call, List.append_assoc,
      List.cons_append, List.nil_append]
  · simp only [postStart, h, if_true]
  · simp only [destroyNetwork, h, if_true]

/-- C12 as stated fails on the word read-only: the bind mount of `resolv.conf` is
made with `MS_BIND` alone, which does not contain `MS_RDONLY`. -/
theorem hostNetwork_bind_not_readonly :
    preStart okEnv hostContainer []
      = (none,
         [.MkdirAll "/mnt/1/etc", .Remove "/mnt/1/etc/resolv.conf",
          .WriteFile "/mnt/1/etc/resolv.conf",
          .Mount "/etc/resolv.conf" "/mnt/1/etc/resolv.conf" MS_BIND]) ∧
    MS_BIND &&& MS_RDONLY = 0 := by
  decide

theorem hostNetwork_ignores_nics_witness :
    preStart okEnv hostContainer []
      = (none,
         [.MkdirAll "/mnt/1/etc", .Remove "/mnt/1/etc/resolv.conf",
          .WriteFile "/mnt/1/etc/resolv.conf",
          .Mount "/etc/resolv.conf" "/mnt/1/etc/resolv.conf" MS_BIND]) ∧
    postStart okEnv hostContainer [] = (none, []) ∧
    destroyNetwork okEnv hostContainer [] = [] :=
  ⟨(hostNetwork_ignores_nics okEnv hostContainer [] (by decide)).1.trans (by decide),
   (hostNetwork_ignores_nics okEnv hostContainer [] (by decide)).2.1,
   (hostNetwork_ignores_nics okEnv hostContainer [] (by decide)).2.2⟩

/-! ## Order of `cleanup` -/

/-- C13 (amended): on a container whose channel is set, `cleanup` closes the
channel first, then runs `destroyNetwork` (whose step for a `default` NIC
unbridges and then stops the port forwarders), then `unMountAll`, and last removes
the container from the manager table; every call of `destroyNetwork` comes after
the close of the channel. -/
theorem cleanup_order (env : Env) (c : container) (t : Trace) (ch : Nat)
    (h : c.channel = some ch) :
    cleanup env c t
      = (.ret (), destroyNetwork env c (t ++ [.channelClose ch])
                    ++ [.unMountAll c.id, .unset_container c.id]) ∧
    (∃ rest, destroyNetwork env c (t ++ [.channelClose ch]) = t ++ [.channelClose ch] ++ rest) ∧
    (∀ idx nic t1, nic.NicType = "default" →
      destroyNic env c idx nic t1 = unPortForward env c (unBridge env c idx nic none t1)) := by
  refine ⟨?_, destroyNetwork_extends env c _, ?_⟩
  · simp only [cleanup, h, call, List.append_assoc, List.cons_append, List.nil_append]
  · intro idx nic t1 hty
    have hne1 : ¬ ("default" = "vxlan") := by decide
    have hne2 : ¬ ("default" = "vlan") := by decide
    have hne3 : ¬ ("default" = "zerotier") := by decide
    simp only [destroyNic, hty, hne1, hne2, hne3, or_self, if_false, if_true]

/-- C13 as stated fails: the first call of `cleanup` is the close of the channel,
the calls of `destroyNetwork` follow it. -/
theorem cleanup_closes_channel_first :
    cleanup okEnv runningContainer []
      = (.ret (),
         [.channelClose 7,
          .LinkByName "cont1-0", .LinkDel "cont1-0", .Kill "socat-1-8080-80",
          .Unmount "/run/netns/1" 0, .RemoveAll "/run/netns/1",
          .unMountAll 1, .unset_container 1]) ∧
    destroyNetwork okEnv runningContainer [.channelClose 7]
      = [.channelClose 7,
         .LinkByName "cont1-0", .LinkDel "cont1-0", .Kill "socat-1-8080-80",
         .Unmount "/run/netns/1" 0, .RemoveAll "/run/netns/1"] := by
  decide

theorem cleanup_order_witness :
    cleanup okEnv runningContainer []
      = (.ret (),
         [.channelClose 7,
          .LinkByName "cont1-0", .LinkDel "cont1-0", .Kill "socat-1-8080-80",
          .Unmount "/run/netns/1" 0, .RemoveAll "/run/netns/1",
          .unMountAll 1, .unset_container 1]) :=
  ((cleanup_order okEnv runningContainer [] 7 (by decide)).1).trans (by decide)

/-! ## Address configuration of `postBridge` -/

theorem runAndWait_trace (env : Env) (cmd : Command) (failure : String) (t : Trace) :
    ∃ rest, (runAndWait env cmd failure t).2 = t ++ rest ∧
      ∀ k ∈ rest, k = .RunCmd cmd ∨ k = .Wait cmd.ID := by
  unfold runAndWait
  simp only [call]
  split
  · exact ⟨[.RunCmd cmd], rfl, by simp⟩
  · split <;> exact ⟨[.RunCmd cmd, .Wait cmd.ID], List.append_assoc _ _ _, by simp⟩

theorem setDNSLoop_no_address (env : Env) (c : container) :
    ∀ (dns : List String) (t : Trace),
      ∃ rest, (setDNSLoop env c dns t).2 = t ++ rest ∧ ∀ k ∈ rest, isAddressAdd k = false := by
  intro dns
  induction dns with
  | nil => intro t; exact ⟨[], (List.append_nil _).symm, by simp⟩
  | cons d rest ih =>
    intro t
    obtain ⟨r, hr, hk⟩ := ih (t ++ [.appendFile (pathJoin [root env.cfg c, "etc", "resolv.conf"])
      ("\nnameserver " ++ d ++ "\n")])
    simp only [setDNSLoop, setDNS, call]
    split
    · rename_i e t1 heq
      simp only [Prod.mk.injEq] at heq
      refine ⟨[.appendFile (pathJoin [root env.cfg c, "etc", "resolv.conf"])
        ("\nnameserver " ++ d ++ "\n")], by rw [← heq.2], ?_⟩
      intro k hk1
      simp only [List.mem_singleton] at hk1
      subst hk1
      rfl
    · rename_i t1 heq
      simp only [Prod.mk.injEq] at heq
      rw [← heq.2, hr]
      refine ⟨_, List.append_assoc _ _ _, ?_⟩
      intro k hk1
      simp only [List.singleton_append, List.mem_cons] at hk1
      rcases hk1 with rfl | hk1
      · rfl
      · exact hk k hk1

theorem postBridgeTail_no_address (env : Env) (c : container) (idx : Nat) (n : Nic)
    (t : Trace) :
    ∃ rest, (postBridgeTail env c idx n t).2 = t ++ rest ∧
      ∀ k ∈ rest, isAddressAdd k = false := by
  by_cases hg : n.Config.Gateway ≠ ""
  · simp only [postBridgeTail, if_pos hg, setGateway]
    obtain ⟨r0, htr, hr0⟩ := runAndWait_trace env (systemCommand env t "ip"
      ["netns", "exec", toString c.id, "ip", "route", "add", "metric", "1000", "default",
       "via", n.Config.Gateway, "dev", "eth" ++ toString idx])
      "error settings interface ip: " t
    have hno : ∀ k ∈ r0, isAddressAdd k = false := by
      intro k hk
      rcases hr0 k hk with rfl | rfl
      · simp [isAddressAdd, systemCommand]
      · rfl
    split
    · rename_i e t1 heq
      rw [heq] at htr
      exact ⟨r0, htr, hno⟩
    · rename_i t1 heq
      rw [heq] at htr
      simp only at htr
      obtain ⟨r, hr, hk⟩ := setDNSLoop_no_address env c n.Config.DNS t1
      rw [hr, htr]
      refine ⟨_, List.append_assoc _ _ _, ?_⟩
      intro k hk1
      rcases List.mem_append.1 hk1 with hk1 | hk1
      · exact hno k hk1
      · exact hk k hk1
  · simp only [postBridgeTail, if_neg hg]
    exact setDNSLoop_no_address env c n.Config.DNS t

theorem runAndWait_first (env : Env) (cmd : Command) (failure : String) (t : Trace) :
    ∃ rest, (runAndWait env cmd failure t).2 = t ++ (.RunCmd cmd :: rest) := by
  unfold runAndWait
  simp only [call]
  split
  · exact ⟨[], rfl⟩
  · split <;> exact ⟨[.Wait cmd.ID], List.append_assoc _ _ _⟩

theorem appendedText_append (path : String) :
    ∀ (t1 t2 : Trace),
      appendedText path (t1 ++ t2) = appendedText path t1 ++ appendedText path t2 := by
  intro t1
  induction t1 with
  | nil => intro t2; simp [appendedText]
  | cons k rest ih =>
    intro t2
    cases k
    case appendFile p text =>
      simp only [List.cons_append, appendedText]
      split
      · rw [String.append_assoc]
        exact congrArg (text ++ ·) (ih t2)
      · exact ih t2
    all_goals exact ih t2

theorem setDNSLoop_ok (env : Env) (c : container)
    (hok : ∀ t1 p x, (env.reply t1 (.appendFile p x)).err = none) :
    ∀ (dns : List String) (t : Trace),
      setDNSLoop env c dns t
        = (none, t ++ dns.map fun d =>
            Call.appendFile (resolvConf env c) ("\nnameserver " ++ d ++ "\n")) := by
  intro dns
  induction dns with
  | nil => intro t; simp [setDNSLoop]
  | cons d rest ih =>
    intro t
    simp only [setDNSLoop, setDNS, call, hok, Option.map_none', ih, List.map_cons,
      List.append_assoc, List.singleton_append, resolvConf]

theorem appendedText_nameservers (path : String) :
    ∀ dns : List String,
      appendedText path (dns.map fun d => Call.appendFile path ("\nnameserver " ++ d ++ "\n"))
        = nameserverLines dns := by
  intro dns
  induction dns with
  | nil => rfl
  | cons d rest ih => simp only [List.map_cons, appendedText, if_true, ih, nameserverLines]

/-- C16 (amended): `setDNS` appends to `<root>/etc/resolv.conf` exactly the text
made of a newline, `nameserver <dns>` and a newline.  When the appends succeed,
the DNS step of `postBridge` over `[d1, ..., dn]` returns `nil`, makes these
appends in list order and nothing else, so the file is its previous content
followed by `\nnameserver d1\n` ... `\nnameserver dn\n`. -/
theorem setDNS_appends_lines (env : Env) (c : container) (t : Trace) :
    (∀ d, (setDNS env c d t).2
        = t ++ [.appendFile (resolvConf env c) ("\nnameserver " ++ d ++ "\n")]) ∧
    ((∀ t1 p x, (env.reply t1 (.appendFile p x)).err = none) →
      ∀ dns,
        setDNSLoop env c dns t
          = (none, t ++ dns.map fun d =>
              Call.appendFile (resolvConf env c) ("\nnameserver " ++ d ++ "\n")) ∧
        appendedText (resolvConf env c) (setDNSLoop env c dns t).2
          = appendedText (resolvConf env c) t ++ nameserverLines dns) := by
  refine ⟨?_, ?_⟩
  · intro d
    simp only [setDNS, call, resolvConf]
  · intro hok dns
    refine ⟨setDNSLoop_ok env c hok dns t, ?_⟩
    rw [setDNSLoop_ok env c hok dns t]
    simp only [appendedText_append, appendedText_nameservers]

/-- C16 as stated fails: the text appended for the server `10.0.0.1` starts with a
newline, it is not the line `nameserver 10.0.0.1` and its newline alone. -/
theorem setDNS_leading_newline :
    setDNS okEnv runningContainer "10.0.0.1" []
      = (none, [.appendFile "/mnt/1/etc/resolv.conf" "\nnameserver 10.0.0.1\n"]) ∧
    appendedText "/mnt/1/etc/resolv.conf" (setDNS okEnv runningContainer "10.0.0.1" []).2
      ≠ "nameserver 10.0.0.1\n" := by
  decide

theorem setDNS_appends_lines_witness :
    setDNSLoop okEnv runningContainer ["10.0.0.1", "8.8.8.8"] []
      = (none, [.appendFile "/mnt/1/etc/resolv.conf" "\nnameserver 10.0.0.1\n",
                .appendFile "/mnt/1/etc/resolv.conf" "\nnameserver 8.8.8.8\n"]) ∧
    appendedText (resolvConf okEnv runningContainer)
        (setDNSLoop okEnv runningContainer ["10.0.0.1", "8.8.8.8"] []).2
      = "\nnameserver 10.0.0.1\n\nnameserver 8.8.8.8\n" :=
  ⟨((setDNS_appends_lines okEnv runningContainer []).2 (by intro t1 p x; rfl)
      ["10.0.0.1", "8.8.8.8"]).1.trans (by decide),
   ((setDNS_appends_lines okEnv runningContainer []).2 (by intro t1 p x; rfl)
      ["10.0.0.1", "8.8.8.8"]).2.trans (by decide)⟩

/-! ## Decimal rendering of numbers -/

theorem digitChar_spec (k : Nat) (h : k < 10) :
    (Nat.digitChar k).isDigit = true ∧ (Nat.digitChar k).toNat - '0'.toNat = k := by
  interval_cases k <;> decide

theorem toDigitsCore_spec :
    ∀ (fuel n : Nat) (ds : List Char), n < fuel →
      ∃ l, Nat.toDigitsCore 10 fuel n ds = l ++ ds ∧ l ≠ [] ∧ l.all Char.isDigit = true ∧
        Nat.ofDigits 10 (l.reverse.map fun ch => ch.toNat - '0'.toNat) = n := by
  intro fuel
  induction fuel with
  | zero => intro n ds h; omega
  | succ fuel ih =>
    intro n ds h
    obtain ⟨hd, hv⟩ := digitChar_spec (n % 10) (Nat.mod_lt _ (by decide))
    by_cases h0 : n / 10 = 0
    · refine ⟨[Nat.digitChar (n % 10)], ?_, by simp, by simp [hd], ?_⟩
      · simp [Nat.toDigitsCore, h0]
      · simp only [List.reverse_singleton, List.map_cons, List.map_nil, Nat.ofDigits_singleton,
          hv]
        omega
    · obtain ⟨l, hl, hne, hall, hval⟩ := ih (n / 10) (Nat.digitChar (n % 10) :: ds) (by omega)
      refine ⟨l ++ [Nat.digitChar (n % 10)], ?_, by simp, ?_, ?_⟩
      · simp [Nat.toDigitsCore, h0, hl]
      · simp [List.all_append, hall, hd]
      · simp only [List.reverse_append, List.reverse_singleton, List.singleton_append,
          List.map_cons, Nat.ofDigits_cons, hv, hval]
        omega

/-- The decimal rendering of a natural number is a non-empty run of digits that
reads back as the number. -/
theorem natRepr_spec (n : Nat) :
    (toString n).data ≠ [] ∧ (toString n).data.all Char.isDigit = true ∧
      Nat.ofDigits 10 ((toString n).data.reverse.map fun ch => ch.toNat - '0'.toNat) = n := by
  obtain ⟨l, hl, hne, hall, hval⟩ := toDigitsCore_spec (n + 1) n [] (Nat.lt_succ_self n)
  have hdata : (toString n).data = l := by
    show (Nat.repr n).data = l
    simp only [Nat.repr, Nat.toDigits, List.asString, hl, List.append_nil]
  rw [hdata]
  exact ⟨hne, hall, hval⟩

theorem natRepr_injective (a b : Nat) (h : toString a = toString b) : a = b := by
  have ha := (natRepr_spec a).2.2
  have hb := (natRepr_spec b).2.2
  rw [h] at ha
  exact ha.symm.trans hb

/-- Two texts made of a run of digits, a non-digit and a rest are equal only when
the runs and the rests are. -/
theorem digits_sep_split (x : Char) (hx : x.isDigit = false) :
    ∀ (l1 l2 r1 r2 : List Char), l1.all Char.isDigit = true → l2.all Char.isDigit = true →
      l1 ++ x :: r1 = l2 ++ x :: r2 → l1 = l2 ∧ r1 = r2 := by
  intro l1
  induction l1 with
  | nil =>
    intro l2 r1 r2 _ h2 h
    cases l2 with
    | nil => simpa using h
    | cons b l2 =>
      simp only [List.nil_append, List.cons_append, List.cons.injEq] at h
      simp only [List.all_cons, Bool.and_eq_true] at h2
      rw [← h.1, hx] at h2
      exact absurd h2.1 (by decide)
  | cons a l1 ih =>
    intro l2 r1 r2 h1 h2 h
    simp only [List.all_cons, Bool.and_eq_true] at h1
    cases l2 with
    | nil =>
      simp only [List.nil_append, List.cons_append, List.cons.injEq] at h
      rw [h.1, hx] at h1
      exact absurd h1.1 (by decide)
    | cons b l2 =>
      simp only [List.all_cons, Bool.and_eq_true] at h2
      simp only [List.cons_append, List.cons.injEq] at h
      obtain ⟨hl, hr⟩ := ih l2 r1 r2 h1.2 h2.2 h.2
      exact ⟨by rw [h.1, hl], hr⟩

/-! ## Veth names -/

theorem containerLinkNameFmt_data (i a : Nat) :
    (containerLinkNameFmt i a).data
      = 'c' :: 'o' :: 'n' :: 't' :: ((toString i).data ++ '-' :: (toString a).data) := by
  simp [containerLinkNameFmt, String.data_append]

theorem containerLinkNameFmt_injective (i a j b : Nat)
    (h : containerLinkNameFmt i a = containerLinkNameFmt j b) : i = j ∧ a = b := by
  have hd := congrArg String.data h
  rw [containerLinkNameFmt_data, containerLinkNameFmt_data] at hd
  simp only [List.cons.injEq, true_and] at hd
  obtain ⟨h1, h2⟩ := digits_sep_split '-' (by decide) _ _ _ _ (natRepr_spec i).2.1
    (natRepr_spec j).2.1 hd
  exact ⟨natRepr_injective i j (String.ext h1), natRepr_injective a b (String.ext h2)⟩

theorem containerPeerNameFmt_injective (x y : String)
    (h : containerPeerNameFmt x = containerPeerNameFmt y) : x = y := by
  have hd := congrArg String.data h
  simp only [containerPeerNameFmt, String.data_append] at hd
  exact String.ext (List.append_cancel_right hd)

theorem link_ne_peer (i a j b : Nat) :
    containerLinkNameFmt i a ≠ containerPeerNameFmt (containerLinkNameFmt j b) := by
  intro h
  have hd := congrArg String.data h
  simp only [containerPeerNameFmt, String.data_append] at hd
  rw [containerLinkNameFmt_data, containerLinkNameFmt_data] at hd
  simp only [List.cons_append, List.cons.injEq, true_and, List.append_assoc] at hd
  obtain ⟨_, h2⟩ := digits_sep_split '-' (by decide) _ _ _ _ (natRepr_spec i).2.1
    (natRepr_spec j).2.1 hd
  have hall := (natRepr_spec a).2.1
  rw [h2] at hall
  simp only [List.all_append, Bool.and_eq_true] at hall
  exact absurd hall.2 (by decide)

theorem postBridge_first (env : Env) (c : container) (idx : Nat) (n : Nic) (t : Trace) :
    ∃ rest, (postBridge env c idx n t).2
      = t ++ (.LinkByName (containerPeerNameFmt (containerLinkNameFmt c.id idx)) :: rest) := by
  have key : ∀ (r : Option GoError × Trace) (t3 : Trace),
      (∃ r3, t3 = t ++ (.LinkByName (containerPeerNameFmt (containerLinkNameFmt c.id idx))
        :: r3)) → (∃ r4, r.2 = t3 ++ r4) →
      ∃ rest, r.2 = t ++ (.LinkByName (containerPeerNameFmt (containerLinkNameFmt c.id idx))
        :: rest) := by
    intro r t3 ⟨r3, h3⟩ ⟨r4, h4⟩
    exact ⟨r3 ++ r4, by rw [h4, h3, List.append_assoc]; rfl⟩
  have tailx : ∀ t5, ∃ r, (postBridgeTail env c idx n t5).2 = t5 ++ r := by
    intro t5
    obtain ⟨r, hr, _⟩ := postBridgeTail_no_address env c idx n t5
    exact ⟨r, hr⟩
  unfold postBridge
  simp only [call]
  split
  · exact ⟨[], rfl⟩
  · split
    · exact ⟨_, List.append_assoc _ _ _⟩
    · split
      · exact ⟨_, by rw [List.append_assoc, List.append_assoc]; rfl⟩
      · have h3 : ∃ r3, t ++ [Call.LinkByName (containerPeerNameFmt (containerLinkNameFmt c.id idx))]
              ++ [.LinkSetUp (containerPeerNameFmt (containerLinkNameFmt c.id idx))]
              ++ [.LinkSetNsPid (containerPeerNameFmt (containerLinkNameFmt c.id idx)) c.PID]
            = t ++ (.LinkByName (containerPeerNameFmt (containerLinkNameFmt c.id idx)) :: r3) :=
          ⟨_, by rw [List.append_assoc, List.append_assoc]; rfl⟩
        obtain ⟨r4, hr4⟩ := runAndWait_first env
          (systemCommand env
            (t ++ [Call.LinkByName (containerPeerNameFmt (containerLinkNameFmt c.id idx))]
              ++ [.LinkSetUp (containerPeerNameFmt (containerLinkNameFmt c.id idx))]
              ++ [.LinkSetNsPid (containerPeerNameFmt (containerLinkNameFmt c.id idx)) c.PID])
            "ip" ["netns", "exec", toString c.id, "ip", "link", "set",
              containerPeerNameFmt (containerLinkNameFmt c.id idx), "name",
              "eth" ++ toString idx])
          "failed to rename device: "
          (t ++ [Call.LinkByName (containerPeerNameFmt (containerLinkNameFmt c.id idx))]
              ++ [.LinkSetUp (containerPeerNameFmt (containerLinkNameFmt c.id idx))]
              ++ [.LinkSetNsPid (containerPeerNameFmt (containerLinkNameFmt c.id idx)) c.PID])
        split
        · rename_i e t4 heq
          rw [heq] at hr4
          exact key _ _ h3 ⟨_, hr4⟩
        · rename_i t4 heq
          rw [heq] at hr4
          simp only at hr4
          have h4 : ∃ r, t4 = t ++
              (.LinkByName (containerPeerNameFmt (containerLinkNameFmt c.id idx)) :: r) :=
            key (none, t4) _ h3 ⟨_, hr4⟩
          split
          · obtain ⟨r, hr⟩ := tailx (t4 ++ [Call.RunCmd (systemCommand env t4 "ip"
              ["netns", "exec", toString c.id, "udhcpc", "-q", "-i", "eth" ++ toString idx,
               "-s", "/usr/share/udhcp/simple.script"])])
            exact key _ t4 h4 ⟨_, by rw [hr, List.append_assoc]⟩
          · split
            · split
              · exact key _ t4 h4 ⟨[], (List.append_nil _).symm⟩
              · obtain ⟨r5, hr5⟩ := runAndWait_first env (systemCommand env t4 "ip"
                  ["netns", "exec", toString c.id, "ip", "link", "set", "dev",
                   "eth" ++ toString idx, "up"]) "error brinding interface up: " t4
                split
                · rename_i e t5 heq5
                  rw [heq5] at hr5
                  exact key _ t4 h4 ⟨_, hr5⟩
                · rename_i t5 heq5
                  rw [heq5] at hr5
                  simp only at hr5
                  have h5 : ∃ r, t5 = t ++
                      (.LinkByName (containerPeerNameFmt (containerLinkNameFmt c.id idx)) :: r) :=
                    key (none, t5) t4 h4 ⟨_, hr5⟩
                  obtain ⟨r6, hr6⟩ := runAndWait_first env (systemCommand env t5 "ip"
                    ["netns", "exec", toString c.id, "ip", "address", "add", n.Config.CIDR,
                     "dev", "eth" ++ toString idx]) "error settings interface ip: " t5
                  split
                  · rename_i e t6 heq6
                    rw [heq6] at hr6
                    exact key _ t5 h5 ⟨_, hr6⟩
                  · rename_i t6 heq6
                    rw [heq6] at hr6
                    simp only at hr6
                    have h6 : ∃ r, t6 = t ++
                        (.LinkByName (containerPeerNameFmt (containerLinkNameFmt c.id idx))
                          :: r) :=
                      key (none, t6) t5 h5 ⟨_, hr6⟩
                    exact key _ t6 h6 (tailx t6)
            · exact key _ t4 h4 (tailx t4)

theorem preBridge_creates (env : Env) (c : container) (idx : Nat) (bridge : String) (n : Nic)
    (ovs : Option Nat) (t : Trace) (h : (env.reply t (.LinkByName bridge)).err = none) :
    ∃ rest, (preBridge env c idx bridge n ovs t).2
      = t ++ (.LinkByName bridge
          :: .LinkAdd { Name := containerLinkNameFmt c.id idx, FlagUp := true, MTU := 1500,
                        TxQLen := 1000,
                        PeerName := containerPeerNameFmt (containerLinkNameFmt c.id idx) }
          :: rest) := by
  simp only [preBridge, call, h]
  split
  · exact ⟨[], List.append_assoc _ _ _⟩
  · obtain ⟨r1, hr1⟩ := setMaster_extends env (containerLinkNameFmt c.id idx) bridge
      (env.reply t (.LinkByName bridge)).data ovs
      (t ++ [.LinkByName bridge] ++ [.LinkAdd
        { Name := containerLinkNameFmt c.id idx, FlagUp := true, MTU := 1500, TxQLen := 1000,
          PeerName := containerPeerNameFmt (containerLinkNameFmt c.id idx) }])
    split
    · rename_i e t3 heq
      rw [heq] at hr1
      simp only at hr1
      exact ⟨r1, by rw [hr1, List.append_assoc, List.append_assoc]; rfl⟩
    · rename_i t3 heq
      rw [heq] at hr1
      simp only at hr1
      obtain ⟨r2, hr2⟩ := setupPeer_extends env
        (containerPeerNameFmt (containerLinkNameFmt c.id idx)) n t3
      exact ⟨r1 ++ r2, by
        rw [hr2, hr1, List.append_assoc, List.append_assoc, List.append_assoc]; rfl⟩

theorem unBridge_trace (env : Env) (c : container) (idx : Nat) (n : Nic) (t : Trace) :
    unBridge env c idx n none t
      = (if (env.reply t (.LinkByName (containerLinkNameFmt c.id idx))).err = none then
          t ++ [.LinkByName (containerLinkNameFmt c.id idx),
                .LinkDel (containerLinkNameFmt c.id idx)]
         else t ++ [.LinkByName (containerLinkNameFmt c.id idx)]) := by
  simp only [unBridge, call]
  split
  · rename_i e heq
    simp [heq]
  · rename_i heq
    simp [heq]

/-- With the OVS container `unBridge` makes one call, whatever its reply: the
dispatch of `ovs.port-del` for the port named `cont<id>-<idx>`. -/
theorem unBridge_trace_ovs (env : Env) (c : container) (idx : Nat) (n : Nic) (o : Nat)
    (t : Trace) :
    unBridge env c idx n (some o) t
      = t ++ [.dispatchSync o
          { ID := "", Command := "ovs.port-del", Route := "",
            Arguments := .map [("port", .str (containerLinkNameFmt c.id idx))] }] := by
  simp only [unBridge, call]

/-- With the OVS container, once the bridge is found and the pair is added,
`preBridge` attaches the host-side name as a port by `ovs.port-add`. -/
theorem preBridge_adds_port (env : Env) (c : container) (idx : Nat) (bridge : String)
    (n : Nic) (o : Nat) (t : Trace)
    (h : (env.reply t (.LinkByName bridge)).err = none)
    (hadd : (env.reply (t ++ [.LinkByName bridge])
      (.LinkAdd { Name := containerLinkNameFmt c.id idx, FlagUp := true, MTU := 1500,
                  TxQLen := 1000,
                  PeerName := containerPeerNameFmt (containerLinkNameFmt c.id idx) })).err
        = none) :
    ∃ rest, (preBridge env c idx bridge n (some o) t).2
      = t ++ (.LinkByName bridge
          :: .LinkAdd { Name := containerLinkNameFmt c.id idx, FlagUp := true, MTU := 1500,
                        TxQLen := 1000,
                        PeerName := containerPeerNameFmt (containerLinkNameFmt c.id idx) }
          :: .dispatchSync o
              { ID := "", Command := "ovs.port-add", Route := "",
                Arguments := .map [("bridge", .str bridge),
                                   ("port", .str (containerLinkNameFmt c.id idx))] }
          :: rest) := by
  simp only [preBridge, call, h, hadd, setMaster]
  split
  · rename_i e t3 heq
    refine ⟨[], ?_⟩
    have h2 := congrArg Prod.snd heq
    revert h2
    split
    · intro h2; simp only at h2; rw [← h2]; simp
    · split
      · intro h2; simp only at h2; rw [← h2]; simp
      · intro h2; simp only at h2; rw [← h2]; simp
  · rename_i t3 heq
    obtain ⟨r2, hr2⟩ := setupPeer_extends env
      (containerPeerNameFmt (containerLinkNameFmt c.id idx)) n t3
    refine ⟨r2, ?_⟩
    rw [hr2]
    have h2 := congrArg Prod.snd heq
    revert h2
    split
    · intro h2; simp only at h2; rw [← h2]; simp
    · split
      · intro h2; simp only at h2; rw [← h2]; simp
      · intro h2; simp only at h2; rw [← h2]; simp

/-- C11: veth names are unique.  For `(i, a) ≠ (j, b)` the host-side names
`cont<i>-<a>` and `cont<j>-<b>` differ and so do the peer names; a host-side name
never equals a peer name.  The three functions agree on the names: once the
bridge is found `preBridge` adds the pair named `cont<id>-<idx>` with peer
`cont<id>-<idx>p`, the first call of `postBridge` looks that peer up, and
`unBridge` without OVS looks the host-side name up and deletes it when found.
With the OVS container the same holds through OVS: `unBridge` dispatches
`ovs.port-del` for the port `cont<id>-<idx>` and nothing else, and that is the
port `preBridge` attaches by `ovs.port-add` once the pair is added. -/
theorem veth_names_unique :
    (∀ i a j b : Nat, (i, a) ≠ (j, b) →
      containerLinkNameFmt i a ≠ containerLinkNameFmt j b ∧
      containerPeerNameFmt (containerLinkNameFmt i a)
        ≠ containerPeerNameFmt (containerLinkNameFmt j b)) ∧
    (∀ i a j b : Nat,
      containerLinkNameFmt i a ≠ containerPeerNameFmt (containerLinkNameFmt j b)) ∧
    (∀ (env : Env) (c : container) (idx : Nat) (n : Nic) (t : Trace),
      (∀ bridge ovs, (env.reply t (.LinkByName bridge)).err = none →
        ∃ rest, (preBridge env c idx bridge n ovs t).2
          = t ++ (.LinkByName bridge
              :: .LinkAdd { Name := containerLinkNameFmt c.id idx, FlagUp := true,
                            MTU := 1500, TxQLen := 1000,
                            PeerName := containerPeerNameFmt (containerLinkNameFmt c.id idx) }
              :: rest)) ∧
      (∃ rest, (postBridge env c idx n t).2
          = t ++ (.LinkByName (containerPeerNameFmt (containerLinkNameFmt c.id idx))
              :: rest)) ∧
      unBridge env c idx n none t
        = (if (env.reply t (.LinkByName (containerLinkNameFmt c.id idx))).err = none then
            t ++ [.LinkByName (containerLinkNameFmt c.id idx),
                  .LinkDel (containerLinkNameFmt c.id idx)]
           else t ++ [.LinkByName (containerLinkNameFmt c.id idx)]) ∧
      (∀ o, unBridge env c idx n (some o) t
        = t ++ [.dispatchSync o
            { ID := "", Command := "ovs.port-del", Route := "",
              Arguments := .map [("port", .str (containerLinkNameFmt c.id idx))] }]) ∧
      (∀ bridge o, (env.reply t (.LinkByName bridge)).err = none →
        (env.reply (t ++ [.LinkByName bridge])
          (.LinkAdd { Name := containerLinkNameFmt c.id idx, FlagUp := true, MTU := 1500,
                      TxQLen := 1000,
                      PeerName := containerPeerNameFmt (containerLinkNameFmt c.id idx) })).err
            = none →
        ∃ rest, (preBridge env c idx bridge n (some o) t).2
          = t ++ (.LinkByName bridge
              :: .LinkAdd { Name := containerLinkNameFmt c.id idx, FlagUp := true,
                            MTU := 1500, TxQLen := 1000,
                            PeerName := containerPeerNameFmt (containerLinkNameFmt c.id idx) }
              :: .dispatchSync o
                  { ID := "", Command := "ovs.port-add", Route := "",
                    Arguments := .map [("bridge", .str bridge),
                                       ("port", .str (containerLinkNameFmt c.id idx))] }
              :: rest))) := by
  refine ⟨?_, link_ne_peer, ?_⟩
  · intro i a j b hne
    refine ⟨?_, ?_⟩
    · intro h
      obtain ⟨h1, h2⟩ := containerLinkNameFmt_injective i a j b h
      exact hne (by rw [h1, h2])
    · intro h
      obtain ⟨h1, h2⟩ := containerLinkNameFmt_injective i a j b
        (containerPeerNameFmt_injective _ _ h)
      exact hne (by rw [h1, h2])
  · intro env c idx n t
    exact ⟨fun bridge ovs h => preBridge_creates env c idx bridge n ovs t h,
      postBridge_first env c idx n t, unBridge_trace env c idx n t,
      fun o => unBridge_trace_ovs env c idx n o t,
      fun bridge o h hadd => preBridge_adds_port env c idx bridge n o t h hadd⟩

theorem veth_names_unique_witness :
    (containerLinkNameFmt 1 12 ≠ containerLinkNameFmt 11 2 ∧
      containerPeerNameFmt (containerLinkNameFmt 1 12)
        ≠ containerPeerNameFmt (containerLinkNameFmt 11 2)) ∧
    (∃ rest, (preBridge okEnv runningContainer 0 "core0" (nicOf "default" "") none []).2
        = [] ++ (.LinkByName "core0"
            :: .LinkAdd { Name := containerLinkNameFmt 1 0, FlagUp := true, MTU := 1500,
                          TxQLen := 1000,
                          PeerName := containerPeerNameFmt (containerLinkNameFmt 1 0) }
            :: rest)) ∧
    unBridge okEnv runningContainer 0 (nicOf "vlan" "100") (some 7) []
      = [] ++ [.dispatchSync 7
          { ID := "", Command := "ovs.port-del", Route := "",
            Arguments := .map [("port", .str (containerLinkNameFmt 1 0))] }] ∧
    (∃ rest, (preBridge okEnv runningContainer 0 "vlbr100" (nicOf "vlan" "100") (some 7) []).2
        = [] ++ (.LinkByName "vlbr100"
            :: .LinkAdd { Name := containerLinkNameFmt 1 0, FlagUp := true, MTU := 1500,
                          TxQLen := 1000,
                          PeerName := containerPeerNameFmt (containerLinkNameFmt 1 0) }
            :: .dispatchSync 7
                { ID := "", Command := "ovs.port-add", Route := "",
                  Arguments := .map [("bridge", .str "vlbr100"),
                                     ("port", .str (containerLinkNameFmt 1 0))] }
            :: rest)) :=
  ⟨veth_names_unique.1 1 12 11 2 (by decide),
   (veth_names_unique.2.2 okEnv runningContainer 0 (nicOf "default" "") []).1 "core0" none
     (by decide),
   (veth_names_unique.2.2 okEnv runningContainer 0 (nicOf "vlan" "100") []).2.2.2.1 7,
   (veth_names_unique.2.2 okEnv runningContainer 0 (nicOf "vlan" "100") []).2.2.2.2
     "vlbr100" 7 (by decide) (by decide)⟩

/-! ## Port forwards -/

theorem intRepr_data (z : Int) :
    ∃ (neg : Bool) (m : Nat),
      (toString z).data = (if neg then ['-'] else []) ++ (toString m).data ∧
      z = (if neg then -(m : Int) else (m : Int)) := by
  cases z with
  | ofNat m => exact ⟨false, m, rfl, rfl⟩
  | negSucc m =>
    refine ⟨true, m + 1, ?_, rfl⟩
    show ("-" ++ toString (m + 1)).data = _
    simp [String.data_append]

theorem digits_head_ne_minus (d r : List Char) (hne : d ≠ []) (hall : d.all Char.isDigit = true)
    (r2 : List Char) : d ++ r ≠ '-' :: r2 := by
  cases d with
  | nil => exact absurd rfl hne
  | cons a d =>
    intro h
    simp only [List.cons_append, List.cons.injEq] at h
    simp only [List.all_cons, Bool.and_eq_true] at hall
    rw [h.1] at hall
    exact absurd hall.1 (by decide)

/-- A signed run of digits followed by `-` and a rest determines the sign, the run
and the rest. -/
theorem signed_sep_split (n1 n2 : Bool) (d1 d2 r1 r2 : List Char)
    (h1 : d1 ≠ [] ∧ d1.all Char.isDigit = true) (h2 : d2 ≠ [] ∧ d2.all Char.isDigit = true)
    (h : (if n1 then ['-'] else []) ++ d1 ++ '-' :: r1
        = (if n2 then ['-'] else []) ++ d2 ++ '-' :: r2) :
    n1 = n2 ∧ d1 = d2 ∧ r1 = r2 := by
  cases n1 <;> cases n2
  · simp only [Bool.false_eq_true, if_false, List.nil_append] at h
    obtain ⟨ha, hb⟩ := digits_sep_split '-' (by decide) _ _ _ _ h1.2 h2.2 h
    exact ⟨rfl, ha, hb⟩
  · simp only [Bool.false_eq_true, if_false, if_true, List.nil_append, List.cons_append] at h
    exact absurd h (digits_head_ne_minus d1 _ h1.1 h1.2 _)
  · simp only [Bool.false_eq_true, if_false, if_true, List.nil_append, List.cons_append] at h
    exact absurd h.symm (digits_head_ne_minus d2 _ h2.1 h2.2 _)
  · simp only [if_true, List.cons_append, List.nil_append, List.cons.injEq, true_and] at h
    obtain ⟨ha, hb⟩ := digits_sep_split '-' (by decide) _ _ _ _ h1.2 h2.2 h
    exact ⟨rfl, ha, hb⟩

theorem signed_split (n1 n2 : Bool) (d1 d2 : List Char)
    (h1 : d1 ≠ [] ∧ d1.all Char.isDigit = true) (h2 : d2 ≠ [] ∧ d2.all Char.isDigit = true)
    (h : (if n1 then ['-'] else []) ++ d1 = (if n2 then ['-'] else []) ++ d2) :
    n1 = n2 ∧ d1 = d2 := by
  cases n1 <;> cases n2
  · simp only [Bool.false_eq_true, if_false, List.nil_append] at h
    exact ⟨rfl, h⟩
  · simp only [Bool.false_eq_true, if_false, if_true, List.nil_append, List.cons_append] at h
    have := digits_head_ne_minus d1 [] h1.1 h1.2 d2
    rw [List.append_nil] at this
    exact absurd h this
  · simp only [Bool.false_eq_true, if_false, if_true, List.nil_append, List.cons_append] at h
    have := digits_head_ne_minus d2 [] h2.1 h2.2 d1
    rw [List.append_nil] at this
    exact absurd h.symm this
  · simp only [if_true, List.cons_append, List.nil_append, List.cons.injEq, true_and] at h
    exact ⟨rfl, h⟩

theorem forwardId_injective (c d : container) (h1 p1 h2 p2 : Int)
    (h : forwardId c h1 p1 = forwardId d h2 p2) : c.id = d.id ∧ h1 = h2 ∧ p1 = p2 := by
  obtain ⟨nh1, mh1, eh1, vh1⟩ := intRepr_data h1
  obtain ⟨nh2, mh2, eh2, vh2⟩ := intRepr_data h2
  obtain ⟨np1, mp1, ep1, vp1⟩ := intRepr_data p1
  obtain ⟨np2, mp2, ep2, vp2⟩ := intRepr_data p2
  have hd := congrArg String.data h
  simp only [forwardId, String.data_append, eh1, eh2, ep1, ep2] at hd
  simp only [List.cons_append, List.nil_append, List.cons.injEq, true_and,
    List.append_assoc] at hd
  obtain ⟨hid, hrest⟩ := digits_sep_split '-' (by decide) _ _ _ _ (natRepr_spec c.id).2.1
    (natRepr_spec d.id).2.1 hd
  have hrest2 : (if nh1 then ['-'] else []) ++ (toString mh1).data
        ++ '-' :: ((if np1 then ['-'] else []) ++ (toString mp1).data)
      = (if nh2 then ['-'] else []) ++ (toString mh2).data
        ++ '-' :: ((if np2 then ['-'] else []) ++ (toString mp2).data) := by
    simpa only [List.append_assoc] using hrest
  obtain ⟨hn, hdg, hr⟩ := signed_sep_split nh1 nh2 _ _ _ _
    ⟨(natRepr_spec mh1).1, (natRepr_spec mh1).2.1⟩
    ⟨(natRepr_spec mh2).1, (natRepr_spec mh2).2.1⟩ hrest2
  obtain ⟨hn2, hdg2⟩ := signed_split np1 np2 _ _
    ⟨(natRepr_spec mp1).1, (natRepr_spec mp1).2.1⟩
    ⟨(natRepr_spec mp2).1, (natRepr_spec mp2).2.1⟩ hr
  have e1 : mh1 = mh2 := natRepr_injective _ _ (String.ext hdg)
  have e2 : mp1 = mp2 := natRepr_injective _ _ (String.ext hdg2)
  refine ⟨natRepr_injective _ _ (String.ext hid), ?_, ?_⟩
  · rw [vh1, vh2, hn, e1]
  · rw [vp1, vp2, hn2, e2]

theorem setPortForwardsLoop_eq (env : Env) (c : container) (ip : List Nat) :
    ∀ (ports : List (Int × Int)) (t : Trace),
      setPortForwardsLoop env c ip ports t
        = t ++ ports.map fun p => Call.RunCmd (socatCmd env c ip p.1 p.2) := by
  intro ports
  induction ports with
  | nil => intro t; simp [setPortForwardsLoop]
  | cons p rest ih =>
    intro t
    obtain ⟨host, cont⟩ := p
    simp only [setPortForwardsLoop, call, ih, List.map_cons, List.append_assoc,
      List.singleton_append]

theorem unPortForwardLoop_eq (env : Env) (c : container) :
    ∀ (ports : List (Int × Int)) (t : Trace),
      unPortForwardLoop env c ports t
        = t ++ ports.map fun p => Call.Kill (forwardId c p.1 p.2) := by
  intro ports
  induction ports with
  | nil => intro t; simp [unPortForwardLoop]
  | cons p rest ih =>
    intro t
    obtain ⟨host, cont⟩ := p
    simp only [unPortForwardLoop, call, ih, List.map_cons, List.append_assoc,
      List.singleton_append]

theorem startedIds_socat (env : Env) (c : container) (ip : List Nat) :
    ∀ ports : List (Int × Int),
      startedIds (ports.map fun p => Call.RunCmd (socatCmd env c ip p.1 p.2))
        = ports.map fun p => forwardId c p.1 p.2 := by
  intro ports
  induction ports with
  | nil => rfl
  | cons p rest ih =>
    simp only [List.map_cons, startedIds, ih]
    rfl

theorem killedIds_forward (c : container) :
    ∀ ports : List (Int × Int),
      killedIds (ports.map fun p => Call.Kill (forwardId c p.1 p.2))
        = ports.map fun p => forwardId c p.1 p.2 := by
  intro ports
  induction ports with
  | nil => rfl
  | cons p rest ih => simp only [List.map_cons, killedIds, ih]

/-- C17: `setPortForwards` returns `nil` and starts exactly one `socat` command per
entry of the port map, with id `socat-<id>-<hostPort>-<containerPort>`, listening
on the host port and connecting to the default address at the container port; for
an empty map it starts none.  `unPortForward` kills one id per entry, and the ids
it kills are the ids `setPortForwards` started.  Different entries or different
containers give different ids. -/
theorem port_forward_ids (env : Env) (c : container) (t : Trace) :
    setPortForwards env c t
      = (none, t ++ c.Args.Port.map fun p =>
          Call.RunCmd
            { ID := "socat-" ++ toString c.id ++ "-" ++ toString p.1 ++ "-" ++ toString p.2,
              Command := env.cfg.CommandSystem, Route := "",
              Arguments := .system "socat"
                ["tcp-listen:" ++ toString p.1 ++ ",reuseaddr,fork",
                 "tcp-connect:" ++ ipString (getDefaultIP env.cfg c) ++ ":" ++ toString p.2]
                true }) ∧
    (c.Args.Port = [] → setPortForwards env c t = (none, t)) ∧
    unPortForward env c t
      = t ++ c.Args.Port.map (fun p =>
          Call.Kill ("socat-" ++ toString c.id ++ "-" ++ toString p.1 ++ "-" ++ toString p.2)) ∧
    (∀ id, id ∈ killedIds (unPortForward env c [])
        ↔ id ∈ startedIds (setPortForwards env c []).2) ∧
    (∀ (d : container) (h1 p1 h2 p2 : Int), (c.id, h1, p1) ≠ (d.id, h2, p2) →
      forwardId c h1 p1 ≠ forwardId d h2 p2) := by
  have hset : setPortForwards env c t
      = (none, t ++ c.Args.Port.map fun p =>
          Call.RunCmd (socatCmd env c (getDefaultIP env.cfg c) p.1 p.2)) := by
    simp only [setPortForwards, setPortForwardsLoop_eq]
  refine ⟨hset, ?_, ?_, ?_, ?_⟩
  · intro h
    simp only [hset, h, List.map_nil, List.append_nil]
  · simp only [unPortForward, unPortForwardLoop_eq]
    rfl
  · intro id
    simp only [unPortForward, unPortForwardLoop_eq, setPortForwards, setPortForwardsLoop_eq,
      List.nil_append, startedIds_socat, killedIds_forward]
  · intro d h1 p1 h2 p2 hne h
    obtain ⟨e1, e2, e3⟩ := forwardId_injective c d h1 p1 h2 p2 h
    exact hne (by rw [e1, e2, e3])

theorem port_forward_ids_witness :
    (startedIds (setPortForwards okEnv forwardingContainer []).2
        = ["socat-1-8080-80", "socat-1-8443-443"] ∧
      killedIds (unPortForward okEnv forwardingContainer [])
        = ["socat-1-8080-80", "socat-1-8443-443"]) ∧
    setPortForwards okEnv noPortContainer [] = (none, []) ∧
    forwardId forwardingContainer 8080 80 ≠ forwardId forwardingContainer 808 80 :=
  ⟨by decide,
   (port_forward_ids okEnv noPortContainer []).2.1 rfl,
   (port_forward_ids okEnv forwardingContainer []).2.2.2.2 forwardingContainer 8080 80 808 80
     (by decide)⟩

/-! ## Launch command -/

theorem cleanup_extends (env : Env) (c : container) (t : Trace) :
    ∃ rest, (cleanup env c t).2 = t ++ rest := by
  unfold cleanup
  simp only [call]
  split
  · exact ⟨_, rfl⟩
  · rename_i ch _
    obtain ⟨r, hr⟩ := destroyNetwork_extends env c (t ++ [.channelClose ch])
    exact ⟨_, by rw [hr, List.append_assoc, List.append_assoc, List.append_assoc]⟩

theorem startReturn_extends (env : Env) (c : container) (err : Option GoError) (t : Trace) :
    ∃ rest, (startReturn env c err t).2.2 = t ++ rest := by
  unfold startReturn
  split
  · exact ⟨[], (List.append_nil _).symm⟩
  · obtain ⟨r, hr⟩ := cleanup_extends env c t
    split
    · rename_i t1 heq
      rw [heq] at hr
      exact ⟨r, hr⟩
    · rename_i m t1 heq
      rw [heq] at hr
      exact ⟨r, hr⟩

/-- C18: for a container that passes `sandbox` and `preStart`, the next call of
`Start` hands to `NewRunner` the command with id `core-<id>`, the route of the
container, binary `/coreX`, chroot `root(id)`, directory `/`, `HostNetwork` as in
the arguments, the environment `PATH=/usr/local/sbin:/usr/local/bin:/usr/sbin:/usr/bin:/sbin:/bin`
and `HOME=/`, and the arguments `-hostname H`, followed by `-unprivileged` exactly
when `Privileged` is false. -/
theorem Start_launch_command (env : Env) (c : container) (t t2 : Trace)
    (hbox : (env.reply t (.sandbox c.id)).err = none)
    (hpre : preStart env c (t ++ [.sandbox c.id]) = (none, t2)) :
    ∃ rest, (Start env c t).2.2
      = t2 ++ (.NewRunner
          { ID := "core-" ++ toString c.id, Route := c.route, Command := "",
            Arguments := .container "/coreX" (root env.cfg c) "/" c.Args.HostNetwork
              (if c.Args.Privileged then ["-hostname", c.Args.Hostname]
               else ["-hostname", c.Args.Hostname, "-unprivileged"])
              [("HOME", "/"),
               ("PATH", "/usr/local/sbin:/usr/local/bin:/usr/sbin:/usr/bin:/sbin:/bin")] }
          :: rest) := by
  have hcmd : extCmd env c
      = { ID := "core-" ++ toString c.id, Route := c.route, Command := "",
          Arguments := .container "/coreX" (root env.cfg c) "/" c.Args.HostNetwork
            (if c.Args.Privileged then ["-hostname", c.Args.Hostname]
             else ["-hostname", c.Args.Hostname, "-unprivileged"])
            [("HOME", "/"),
             ("PATH", "/usr/local/sbin:/usr/local/bin:/usr/sbin:/usr/bin:/sbin:/bin")] } := by
    unfold extCmd
    cases c.Args.Privileged <;> rfl
  rw [← hcmd]
  simp only [Start, call, hbox, hpre]
  split
  · obtain ⟨r, hr⟩ := startReturn_extends env c
      (some (.mk (by assumption))) (t2 ++ [.NewRunner (extCmd env c)])
    exact ⟨r, by rw [hr, List.append_assoc]; rfl⟩
  · exact ⟨[], rfl⟩

theorem Start_launch_command_witness :
    ∃ rest, (Start okEnv (freshContainer [nicOf "zerotier" "n"]) []).2.2
      = [.sandbox 1] ++ (.NewRunner
          { ID := "core-" ++ toString (freshContainer [nicOf "zerotier" "n"]).id,
            Route := (freshContainer [nicOf "zerotier" "n"]).route, Command := "",
            Arguments := .container "/coreX"
              (root okEnv.cfg (freshContainer [nicOf "zerotier" "n"])) "/"
              (freshContainer [nicOf "zerotier" "n"]).Args.HostNetwork
              (if (freshContainer [nicOf "zerotier" "n"]).Args.Privileged then
                ["-hostname", (freshContainer [nicOf "zerotier" "n"]).Args.Hostname]
               else
                ["-hostname", (freshContainer [nicOf "zerotier" "n"]).Args.Hostname,
                 "-unprivileged"])
              [("HOME", "/"),
               ("PATH", "/usr/local/sbin:/usr/local/bin:/usr/sbin:/usr/bin:/sbin:/bin")] }
          :: rest) :=
  Start_launch_command okEnv (freshContainer [nicOf "zerotier" "n"]) [] [.sandbox 1]
    (by decide) (by decide)

/-! ## `MapArgs.Clone` -/

/-- C19, evaluated on arguments with a scalar, a map and two slices: the deep
clone keeps only the `[]int` and `[]string` entries; the keys `name` and `env`
are missing from its data, while tag and controller are kept.  The shallow clone
has the same keys. -/
theorem Clone_deep_drops_entries :
    (demoMapArgs.Clone true).keys = ["ports", "args"] ∧
    demoMapArgs.keys = ["name", "env", "ports", "args"] ∧
    (demoMapArgs.Clone false).keys = ["name", "env", "ports", "args"] ∧
    (demoMapArgs.Clone true).tag = "t" ∧
    (demoMapArgs.Clone true).controller = some "main" := by
  decide

/-! ## `Sample.Feed` -/

theorem wrapInt64_of_range (x : Int) (h1 : -(2 ^ 63) ≤ x) (h2 : x < 2 ^ 63) :
    wrapInt64 x = x := by
  unfold wrapInt64
  omega

/-- For a time `now ≥ 0` and a duration `d > 0` in the `int64` range the period is
computed without overflow: it is `now / d * d`. -/
theorem period_eq (now d : Int) (hnow : 0 ≤ now) (hnow2 : now < 2 ^ 63) (hd : 0 < d) :
    wrapInt64 (wrapInt64 (Int.tdiv now d) * d) = now / d * d := by
  have hq0 : 0 ≤ now / d := Int.ediv_nonneg hnow (Int.le_of_lt hd)
  have hle : now / d * d ≤ now := Int.ediv_mul_le now (Int.ne_of_gt hd)
  have hqle : now / d ≤ now / d * d := by
    have := Int.mul_le_mul_of_nonneg_left (show (1 : Int) ≤ d by omega) hq0
    simpa using this
  have hp0 : 0 ≤ now / d * d := Int.mul_nonneg hq0 (Int.le_of_lt hd)
  rw [Int.tdiv_eq_ediv hnow (Int.le_of_lt hd), wrapInt64_of_range (now / d) (by omega) (by omega),
    wrapInt64_of_range (now / d * d) (by omega) (by omega)]

theorem Feed_eq {F : Type} (ops : FloatOps F) (m : Sample F) (value : F) (now d : Int)
    (hnow : 0 ≤ now) (hnow2 : now < 2 ^ 63) (hd : 0 < d) :
    m.Feed ops value now d
      = if now / d * d ≠ 0 ∧ m.Start < now / d * d then
          some ({ Avg := value, Total := value, Max := value, Count := 1,
                  Start := now / d * d }, some m)
        else
          some ({ Avg := ops.div (ops.add m.Total value) (ops.ofUint ((m.Count + 1) % 2 ^ 64)),
                  Total := ops.add m.Total value,
                  Max := if ops.gt value m.Max then value else m.Max,
                  Count := (m.Count + 1) % 2 ^ 64,
                  Start := if m.Start = 0 then now / d * d else m.Start }, none) := by
  have hd0 : d ≠ 0 := Int.ne_of_gt hd
  simp only [Sample.Feed, hd0, if_false, period_eq now d hnow hnow2 hd]

/-- C20 (amended): for `now ≥ 0` and a duration `d > 0` (both `int64`), with
`period = (now / d) * d`: when `period ≠ 0` and `Start < period`, `Feed` returns a
copy of the sample as it was and the sample becomes `Count = 1`, `Start = period`,
`Total = Avg = Max = value`.  Otherwise `Feed` returns `nil`, `Count` becomes
`(Count + 1) mod 2^64` (one more, unless it held the largest `uint`), `Total`
becomes `Total + value`, `Max` becomes `value` when `value > Max` and stays
otherwise, and `Start` is unchanged unless it was `0`, when it becomes `period`.
A `Start` that is a multiple of `d` stays one. -/
theorem Feed_period_rotation {F : Type} (ops : FloatOps F) (m : Sample F) (value : F)
    (now d : Int) (hnow : 0 ≤ now) (hnow2 : now < 2 ^ 63) (hd : 0 < d) :
    (now / d * d ≠ 0 ∧ m.Start < now / d * d →
      m.Feed ops value now d
        = some ({ Avg := value, Total := value, Max := value, Count := 1,
                  Start := now / d * d }, some m)) ∧
    (¬ (now / d * d ≠ 0 ∧ m.Start < now / d * d) →
      ∃ m1, m.Feed ops value now d = some (m1, none) ∧
        m1.Count = (m.Count + 1) % 2 ^ 64 ∧
        (m.Count + 1 < 2 ^ 64 → m1.Count = m.Count + 1) ∧
        m1.Total = ops.add m.Total value ∧
        m1.Max = (if ops.gt value m.Max then value else m.Max) ∧
        m1.Start = (if m.Start = 0 then now / d * d else m.Start)) ∧
    (d ∣ m.Start → ∀ m1 r, m.Feed ops value now d = some (m1, r) → d ∣ m1.Start) := by
  have heq := Feed_eq ops m value now d hnow hnow2 hd
  refine ⟨?_, ?_, ?_⟩
  · intro h
    rw [heq, if_pos h]
  · intro h
    rw [heq, if_neg h]
    exact ⟨_, rfl, rfl, fun hlt => Nat.mod_eq_of_lt hlt, rfl, rfl, rfl⟩
  · intro hdiv m1 r hfeed
    rw [heq] at hfeed
    by_cases h : now / d * d ≠ 0 ∧ m.Start < now / d * d
    · rw [if_pos h] at hfeed
      simp only [Option.some.injEq, Prod.mk.injEq] at hfeed
      rw [← hfeed.1]
      exact Int.dvd_mul_left _ _
    · rw [if_neg h] at hfeed
      simp only [Option.some.injEq, Prod.mk.injEq] at hfeed
      rw [← hfeed.1]
      show d ∣ (if m.Start = 0 then now / d * d else m.Start)
      split
      · exact Int.dvd_mul_left _ _
      · exact hdiv

/-- C20 as stated fails at the largest counter: with `Count = 2^64 - 1` and no
rotation (`period = 120 = Start`), `Feed` returns `nil` and `Count` becomes `0`,
not one more. -/
theorem Feed_count_wraps :
    (fullSample.Feed intOps 2 130 60).map (fun r => (r.1.Count, r.1.Start, r.2))
      = some (0, 120, none) ∧
    fullSample.Count + 1 ≠ 0 := by
  decide

theorem Feed_period_rotation_witness :
    fullSample.Feed intOps 2 190 60
        = some ({ Avg := 2, Total := 2, Max := 2, Count := 1, Start := 180 },
                some fullSample) ∧
    (∃ m1, ({ fullSample with Count := 4 } : Sample Int).Feed intOps 2 130 60 = some (m1, none) ∧
        m1.Count = (4 + 1) % 2 ^ 64 ∧
        (4 + 1 < 2 ^ 64 → m1.Count = 4 + 1) ∧
        m1.Total = intOps.add 5 2 ∧
        m1.Max = (if intOps.gt 2 3 then 2 else 3) ∧
        m1.Start = (if (120 : Int) = 0 then 130 / 60 * 60 else 120)) ∧
    (60 : Int) ∣ 180 :=
  ⟨((Feed_period_rotation intOps fullSample 2 190 60 (by decide) (by decide) (by decide)).1
      (by decide)).trans (by decide),
   (Feed_period_rotation intOps { fullSample with Count := 4 } 2 130 60 (by decide) (by decide)
      (by decide)).2.1 (by decide),
   (Feed_period_rotation intOps fullSample 2 190 60 (by decide) (by decide) (by decide)).2.2
      (by decide) _ _ rfl⟩

/-! ## Tear-down on a host state -/

theorem replay_snoc (h0 : Host) (t : Trace) (k : Call) :
    replay h0 (t ++ [k]) = hostApply (replay h0 t) k := by
  simp [replay, List.foldl_append]

theorem unPortForwardLoop_replay (cfg : Config) (c : container) (h0 : Host) :
    ∀ (ports : List (Int × Int)) (t : Trace),
      replay h0 (unPortForwardLoop (hostEnv cfg h0) c ports t)
        = unPortForwardH c ports (replay h0 t) := by
  intro ports
  induction ports with
  | nil => intro t; rfl
  | cons p rest ih =>
    intro t
    obtain ⟨host, cont⟩ := p
    simp only [unPortForwardLoop, unPortForwardH, call, ih, replay_snoc]

theorem unBridge_replay_none (cfg : Config) (c : container) (h0 : Host) (idx : Nat) (n : Nic)
    (t : Trace) :
    replay h0 (unBridge (hostEnv cfg h0) c idx n none t)
      = delLinkH (containerLinkNameFmt c.id idx) (replay h0 t) := by
  simp only [unBridge, call, hostEnv, hostReply, delLinkH]
  by_cases hin : containerLinkNameFmt c.id idx ∈ (replay h0 t).links
  · simp only [hin, if_true, okReply, replay_snoc]
    rfl
  · simp only [hin, if_false, replay_snoc]
    rfl

theorem unBridge_replay_some (cfg : Config) (c : container) (h0 : Host) (idx : Nat) (n : Nic)
    (o : Nat) (t : Trace) :
    replay h0 (unBridge (hostEnv cfg h0) c idx n (some o) t) = replay h0 t := by
  simp only [unBridge, call, replay_snoc]
  rfl

theorem destroyNic_replay (cfg : Config) (c : container) (h0 : Host) (idx : Nat) (n : Nic)
    (t : Trace) :
    replay h0 (destroyNic (hostEnv cfg h0) c idx n t) = destroyNicH c idx n (replay h0 t) := by
  unfold destroyNic destroyNicH
  split
  · simp only [call]
    have href : ((hostEnv cfg h0).reply t (.getOneWithTags OVSTag)).ref = (replay h0 t).ovs := by
      simp [hostEnv, hostReply]
    have hsame : replay h0 (t ++ [.getOneWithTags OVSTag]) = replay h0 t := by
      rw [replay_snoc]; rfl
    rw [href]
    cases hovs : (replay h0 t).ovs with
    | none => simp only [unBridge_replay_none, hsame]
    | some o => simp only [unBridge_replay_some, hsame]
  · split
    · simp only [call, replay_snoc]
    · split
      · simp only [unPortForward, unPortForwardLoop_replay, unBridge_replay_none]
      · rfl

theorem destroyLoop_replay (cfg : Config) (c : container) (h0 : Host) :
    ∀ (nics : List Nic) (idx : Nat) (t : Trace),
      replay h0 (destroyLoop (hostEnv cfg h0) c idx nics t)
        = destroyLoopH c idx nics (replay h0 t) := by
  intro nics
  induction nics with
  | nil => intro idx t; rfl
  | cons n rest ih =>
    intro idx t
    simp only [destroyLoop, destroyLoopH, ih, destroyNic_replay]

theorem destroyNetwork_replay (cfg : Config) (c : container) (h0 : Host) (t : Trace) :
    replay h0 (destroyNetwork (hostEnv cfg h0) c t) = destroyNetworkH c (replay h0 t) := by
  unfold destroyNetwork destroyNetworkH
  split
  · rfl
  · simp only [call]
    split
    · simp only [replay_snoc, destroyLoop_replay, unmountNsH]
    · simp only [destroyLoop_replay]

theorem destroyedHost_eq (cfg : Config) (c : container) (h : Host) :
    destroyedHost cfg c h = destroyNetworkH c h := by
  simp only [destroyedHost, destroyNetwork_replay]
  rfl

theorem Host.Sub.refl (h : Host) : h.Sub h :=
  ⟨fun _ hx => hx, fun _ hx => hx, fun _ hx => hx, fun _ hx => hx, rfl⟩

theorem Host.Sub.trans {a b d : Host} (h1 : a.Sub b) (h2 : b.Sub d) : a.Sub d :=
  ⟨fun x hx => h2.1 x (h1.1 x hx), fun x hx => h2.2.1 x (h1.2.1 x hx),
   fun x hx => h2.2.2.1 x (h1.2.2.1 x hx), fun x hx => h2.2.2.2.1 x (h1.2.2.2.1 x hx),
   h1.2.2.2.2.trans h2.2.2.2.2⟩

theorem hostApply_sub (h : Host) (k : Call) : (hostApply h k).Sub h := by
  cases k
  case LinkDel n =>
    exact ⟨fun x hx => (List.mem_filter.1 hx).1, fun _ hx => hx, fun _ hx => hx,
      fun _ hx => hx, rfl⟩
  case Kill id =>
    exact ⟨fun _ hx => hx, fun x hx => (List.mem_filter.1 hx).1, fun _ hx => hx,
      fun _ hx => hx, rfl⟩
  case Unmount target flags =>
    exact ⟨fun _ hx => hx, fun _ hx => hx, fun x hx => (List.mem_filter.1 hx).1,
      fun _ hx => hx, rfl⟩
  case RemoveAll p =>
    simp only [hostApply]
    split
    · exact Host.Sub.refl h
    · exact ⟨fun _ hx => hx, fun _ hx => hx, fun _ hx => hx,
        fun x hx => (List.mem_filter.1 hx).1, rfl⟩
  all_goals exact Host.Sub.refl h

theorem kill_absent (h : Host) (id : String) (hid : id ∉ h.running) :
    hostApply h (.Kill id) = h := by
  have hf : h.running.filter (fun x => x ≠ id) = h.running := by
    rw [List.filter_eq_self]
    intro x hx
    simp only [ne_eq, decide_eq_true_eq]
    intro he
    exact hid (he ▸ hx)
  simp only [hostApply, hf]

theorem kill_removes (h : Host) (id : String) : id ∉ (hostApply h (.Kill id)).running := by
  simp [hostApply, List.mem_filter]

theorem delLinkH_sub (n : String) (h : Host) : (delLinkH n h).Sub h := by
  unfold delLinkH
  split
  · exact hostApply_sub h _
  · exact Host.Sub.refl h

theorem delLinkH_absent (n : String) (h : Host) (hn : n ∉ h.links) : delLinkH n h = h := by
  simp only [delLinkH, hn, if_false]

theorem delLinkH_removes (n : String) (h : Host) : n ∉ (delLinkH n h).links := by
  unfold delLinkH
  split
  · simp [hostApply, List.mem_filter]
  · assumption

theorem unPortForwardH_sub (c : container) :
    ∀ (ports : List (Int × Int)) (h : Host), (unPortForwardH c ports h).Sub h := by
  intro ports
  induction ports with
  | nil => intro h; exact Host.Sub.refl h
  | cons p rest ih =>
    intro h
    obtain ⟨host, cont⟩ := p
    exact (ih _).trans (hostApply_sub h _)

theorem unPortForwardH_absent (c : container) :
    ∀ (ports : List (Int × Int)) (h : Host),
      (∀ p ∈ ports, forwardId c p.1 p.2 ∉ h.running) → unPortForwardH c ports h = h := by
  intro ports
  induction ports with
  | nil => intro h _; rfl
  | cons p rest ih =>
    intro h hall
    obtain ⟨host, cont⟩ := p
    have h1 := kill_absent h (forwardId c host cont) (hall (host, cont) (List.mem_cons_self _ _))
    simp only [unPortForwardH, h1]
    exact ih h fun q hq => hall q (List.mem_cons_of_mem _ hq)

theorem unPortForwardH_removes (c : container) :
    ∀ (ports : List (Int × Int)) (h : Host),
      ∀ p ∈ ports, forwardId c p.1 p.2 ∉ (unPortForwardH c ports h).running := by
  intro ports
  induction ports with
  | nil => intro h p hp; simp at hp
  | cons q rest ih =>
    intro h p hp
    obtain ⟨host, cont⟩ := q
    rcases List.mem_cons.1 hp with rfl | hp
    · intro hin
      exact kill_removes h (forwardId c host cont)
        ((unPortForwardH_sub c rest _).2.1 _ hin)
    · exact ih _ p hp

theorem destroyNicH_sub (c : container) (idx : Nat) (n : Nic) (h : Host) :
    (destroyNicH c idx n h).Sub h := by
  unfold destroyNicH
  split
  · split
    · exact Host.Sub.refl h
    · exact delLinkH_sub _ h
  · split
    · exact hostApply_sub h _
    · split
      · exact (unPortForwardH_sub c _ _).trans (delLinkH_sub _ h)
      · exact Host.Sub.refl h

theorem NicClean_of_sub (c : container) (idx : Nat) (n : Nic) (a b : Host) (hs : a.Sub b)
    (hc : NicClean c idx n b) : NicClean c idx n a := by
  obtain ⟨h1, h2, h3⟩ := hc
  refine ⟨?_, ?_, ?_⟩
  · intro hty
    exact ⟨fun hin => (h1 hty).1 (hs.1 _ hin),
      fun p hp hin => (h1 hty).2 p hp (hs.2.1 _ hin)⟩
  · intro hty hin
    exact h2 hty (hs.2.1 _ hin)
  · intro hty hovs hin
    exact h3 hty (hs.2.2.2.2 ▸ hovs) (hs.1 _ hin)

theorem destroyNicH_of_clean (c : container) (idx : Nat) (n : Nic) (h : Host)
    (hc : NicClean c idx n h) : destroyNicH c idx n h = h := by
  obtain ⟨h1, h2, h3⟩ := hc
  unfold destroyNicH
  split
  · rename_i hty
    split
    · rfl
    · rename_i hovs
      exact delLinkH_absent _ h (h3 hty hovs)
  · split
    · rename_i hty
      exact kill_absent h _ (h2 hty)
    · split
      · rename_i hty
        rw [delLinkH_absent _ h (h1 hty).1]
        exact unPortForwardH_absent c _ h (h1 hty).2
      · rfl

theorem destroyNicH_clean (c : container) (idx : Nat) (n : Nic) (h : Host) :
    NicClean c idx n (destroyNicH c idx n h) := by
  have hne1 : ¬ ("default" = "vxlan") := by decide
  have hne2 : ¬ ("default" = "vlan") := by decide
  have hne3 : ¬ ("default" = "zerotier") := by decide
  have hne4 : ¬ ("zerotier" = "vxlan") := by decide
  have hne5 : ¬ ("zerotier" = "vlan") := by decide
  refine ⟨?_, ?_, ?_⟩
  · intro hty
    simp only [destroyNicH, hty, hne1, hne2, hne3, or_self, if_false, if_true]
    exact ⟨fun hin => delLinkH_removes _ h ((unPortForwardH_sub c _ _).1 _ hin),
      unPortForwardH_removes c _ _⟩
  · intro hty
    simp only [destroyNicH, hty, hne4, hne5, or_self, if_false, if_true]
    exact kill_removes h _
  · intro hty
    simp only [destroyNicH, hty, if_true]
    cases hovs : h.ovs with
    | none =>
      intro _
      exact delLinkH_removes _ h
    | some o =>
      intro hnone
      rw [hovs] at hnone
      exact absurd hnone (by simp)

theorem destroyLoopH_sub (c : container) :
    ∀ (nics : List Nic) (idx : Nat) (h : Host), (destroyLoopH c idx nics h).Sub h := by
  intro nics
  induction nics with
  | nil => intro idx h; exact Host.Sub.refl h
  | cons n rest ih =>
    intro idx h
    exact (ih (idx + 1) _).trans (destroyNicH_sub c idx n h)

theorem destroyLoopH_clean (c : container) :
    ∀ (nics : List Nic) (idx : Nat) (h : Host) (j : Nat) (n : Nic), nics[j]? = some n →
      NicClean c (idx + j) n (destroyLoopH c idx nics h) := by
  intro nics
  induction nics with
  | nil => intro idx h j n hj; simp at hj
  | cons a rest ih =>
    intro idx h j n hj
    cases j with
    | zero =>
      simp only [List.getElem?_cons_zero, Option.some.injEq] at hj
      subst hj
      exact NicClean_of_sub c idx a _ _ (destroyLoopH_sub c rest (idx + 1) _)
        (destroyNicH_clean c idx a h)
    | succ j =>
      simp only [List.getElem?_cons_succ] at hj
      have := ih (idx + 1) (destroyNicH c idx a h) j n hj
      rwa [show idx + 1 + j = idx + (j + 1) by omega] at this

theorem destroyLoopH_of_clean (c : container) :
    ∀ (nics : List Nic) (idx : Nat) (h : Host),
      (∀ j n, nics[j]? = some n → NicClean c (idx + j) n h) → destroyLoopH c idx nics h = h := by
  intro nics
  induction nics with
  | nil => intro idx h _; rfl
  | cons a rest ih =>
    intro idx h hall
    have h0 := destroyNicH_of_clean c idx a h (hall 0 a (by simp))
    simp only [destroyLoopH, h0]
    exact ih (idx + 1) h fun j n hj => by
      have := hall (j + 1) n (by simpa using hj)
      rwa [show idx + (j + 1) = idx + 1 + j by omega] at this

theorem unmountNsH_sub (c : container) (h : Host) : (unmountNsH c h).Sub h :=
  (hostApply_sub _ _).trans (hostApply_sub h _)

theorem removeAll_removes (h : Host) (p : String) (hp : p ∉ h.mounts) :
    p ∉ (hostApply h (.RemoveAll p)).files := by
  simp only [hostApply, if_neg hp]
  simp [List.mem_filter]

theorem unmountNsH_removes (c : container) (h : Host) :
    "/run/netns/" ++ toString c.id ∉ (unmountNsH c h).mounts ∧
    "/run/netns/" ++ toString c.id ∉ (unmountNsH c h).files := by
  have hm : "/run/netns/" ++ toString c.id
      ∉ (hostApply h (.Unmount ("/run/netns/" ++ toString c.id) 0)).mounts := by
    simp [hostApply, List.mem_filter]
  exact ⟨fun hin => hm ((hostApply_sub _ _).2.2.1 _ hin), removeAll_removes _ _ hm⟩

theorem unmountNsH_of_clean (c : container) (h : Host)
    (hm : "/run/netns/" ++ toString c.id ∉ h.mounts)
    (hf : "/run/netns/" ++ toString c.id ∉ h.files) : unmountNsH c h = h := by
  have h1 : hostApply h (.Unmount ("/run/netns/" ++ toString c.id) 0) = h := by
    have hfl : h.mounts.filter (fun x => x ≠ "/run/netns/" ++ toString c.id) = h.mounts := by
      rw [List.filter_eq_self]
      intro x hx
      simp only [ne_eq, decide_eq_true_eq]
      intro he
      exact hm (he ▸ hx)
    simp only [hostApply, hfl]
  have h2 : hostApply h (.RemoveAll ("/run/netns/" ++ toString c.id)) = h := by
    have hfl : h.files.filter (fun x => x ≠ "/run/netns/" ++ toString c.id) = h.files := by
      rw [List.filter_eq_self]
      intro x hx
      simp only [ne_eq, decide_eq_true_eq]
      intro he
      exact hf (he ▸ hx)
    simp only [hostApply, hm, if_false, hfl]
  rw [unmountNsH, h1, h2]

theorem destroyNetworkH_idem (c : container) (h : Host) :
    destroyNetworkH c (destroyNetworkH c h) = destroyNetworkH c h := by
  by_cases hn : c.Args.HostNetwork = true
  · simp only [destroyNetworkH, hn, if_true]
  · have hclean : ∀ h1 : Host, h1.Sub (destroyLoopH c 0 c.Args.Nics h) →
        destroyLoopH c 0 c.Args.Nics h1 = h1 := by
      intro h1 hs
      apply destroyLoopH_of_clean
      intro j n hj
      exact NicClean_of_sub c (0 + j) n h1 _ hs (destroyLoopH_clean c c.Args.Nics 0 h j n hj)
    have hn1 : c.Args.HostNetwork = false := by simpa using hn
    by_cases hp : c.PID > 0
    · simp only [destroyNetworkH, hn1, Bool.false_eq_true, if_false, hp, if_true]
      rw [hclean _ (unmountNsH_sub c _)]
      exact unmountNsH_of_clean c _ (unmountNsH_removes c _).1 (unmountNsH_removes c _).2
    · simp only [destroyNetworkH, hn1, Bool.false_eq_true, if_false, hp]
      exact hclean _ (Host.Sub.refl _)

/-- C14 (amended): `destroyNetwork` is idempotent on the host state: for every
container record and every host state, a second run leaves the state of the
first run.  For a container without host networking, after one run no link
`cont<id>-<idx>` remains for a `default` NIC at index `idx`, and when `pid > 0`
neither the mount nor the file `/run/netns/<id>` remains. -/
theorem destroyNetwork_idempotent (cfg : Config) (c : container) (h : Host) :
    destroyedHost cfg c (destroyedHost cfg c h) = destroyedHost cfg c h ∧
    (c.Args.HostNetwork = false →
      (∀ idx nic, c.Args.Nics[idx]? = some nic → nic.NicType = "default" →
        containerLinkNameFmt c.id idx ∉ (destroyedHost cfg c h).links) ∧
      (c.PID > 0 →
        "/run/netns/" ++ toString c.id ∉ (destroyedHost cfg c h).mounts ∧
        "/run/netns/" ++ toString c.id ∉ (destroyedHost cfg c h).files)) := by
  simp only [destroyedHost_eq]
  refine ⟨destroyNetworkH_idem c h, ?_⟩
  intro hn
  refine ⟨?_, ?_⟩
  · intro idx nic hidx hty
    have hc := destroyLoopH_clean c c.Args.Nics 0 h idx nic hidx
    rw [Nat.zero_add] at hc
    have hs : (destroyNetworkH c h).Sub (destroyLoopH c 0 c.Args.Nics h) := by
      simp only [destroyNetworkH, hn, Bool.false_eq_true, if_false]
      split
      · exact unmountNsH_sub c _
      · exact Host.Sub.refl _
    exact ((NicClean_of_sub c idx nic _ _ hs hc).1 hty).1
  · intro hp
    simp only [destroyNetworkH, hn, Bool.false_eq_true, if_false, hp, if_true]
    exact unmountNsH_removes c _

/-- C14 as stated fails for a container with host networking: `destroyNetwork`
returns at once, so on a host that holds the link `cont1-0` and the file
`/run/netns/1` both remain, although NIC 0 is a `default` NIC and `pid > 0`. -/
theorem destroyNetwork_hostNetwork_keeps_state :
    destroyedHost demoCfg hostContainer dirtyHost = dirtyHost ∧
    hostContainer.Args.Nics[0]? = some (nicOf "default" "") ∧
    hostContainer.PID > 0 ∧
    containerLinkNameFmt hostContainer.id 0 ∈ (destroyedHost demoCfg hostContainer dirtyHost).links ∧
    "/run/netns/" ++ toString hostContainer.id
      ∈ (destroyedHost demoCfg hostContainer dirtyHost).files := by
  decide

theorem destroyNetwork_idempotent_witness :
    destroyedHost demoCfg runningContainer dirtyHost
        = { links := ["core0", "cont2-0"], veths := [("cont1-0", "cont1-0p")], mounts := [],
            files := ["/run/netns/2"], running := ["core-2"], ovs := none } ∧
    destroyedHost demoCfg runningContainer (destroyedHost demoCfg runningContainer dirtyHost)
        = destroyedHost demoCfg runningContainer dirtyHost ∧
    containerLinkNameFmt runningContainer.id 0
        ∉ (destroyedHost demoCfg runningContainer dirtyHost).links ∧
    "/run/netns/" ++ toString runningContainer.id
        ∉ (destroyedHost demoCfg runningContainer dirtyHost).files :=
  ⟨by decide,
   (destroyNetwork_idempotent demoCfg runningContainer dirtyHost).1,
   ((destroyNetwork_idempotent demoCfg runningContainer dirtyHost).2 (by decide)).1 0
     (nicOf "default" "") (by decide) (by decide),
   (((destroyNetwork_idempotent demoCfg runningContainer dirtyHost).2 (by decide)).2
     (by decide)).2⟩

end Core0
